import Mathlib

/-!
# stout isolation worker: dispatchers and the porto box

A shallow embedding of `isolate/initialdispatch.go`, `isolate/spawndispatch.go`,
`isolate/porto/box.go` and `isolate/porto/container.go`.

Conventions of the embedding.

* A Go function that talks to a collaborator (the porto engine, the registry
  client, the download helper, the file system, the allocation service) takes the
  collaborator's answers as a record of functions keyed by the arguments of the
  call, and returns, next to its Go results, the list of calls it made, in order.
* Mutable fields of `Box` and package-level metrics are passed in and returned.
* `defer`red calls are placed where they run: right before the function returns.
-/

namespace Stout

/-! ## Go values -/

/-- Go `error` values that the embedded code creates, inspects or passes on. -/
inductive GoError where
  /-- An error made by `fmt.Errorf`; `text` is its `Error()` string. -/
  | errorf (text : String)
  /-- A `*porto.Error`; `errName` is its `ErrName`. -/
  | porto (errName : String) (text : String)
  /-- Any other error value handed back by a collaborator. -/
  | other (text : String)
  /-- The value `syscall.EAGAIN`. -/
  | eagain
  /-- The value `isolate.ErrSpawningCancelled`. -/
  | spawningCancelled
  deriving DecidableEq, Repr

/-- The `Error()` string of an error value. -/
def GoError.Error : GoError → String
  | .errorf t => t
  | .porto _ t => t
  | .other t => t
  | .eagain => "resource temporarily unavailable"
  | .spawningCancelled => "spawning has been cancelled"

/-- Modelled from the spec: `isEqualPortoError` is not among the sources; it tells
whether an error is the engine error of the given name (`LayerAlreadyExists`,
`InvalidState`). -/
def isEqualPortoError (err : GoError) (name : String) : Bool :=
  match err with
  | .porto n _ => n == name
  | _ => false

/-- Go `strings.HasPrefix`. -/
def stringsHasPrefix (s pre : String) : Bool :=
  pre.data.isPrefixOf s.data

/-- Go `strings.Replace(s, ":", "_", -1)`. -/
def replaceColons (s : String) : String :=
  String.mk (s.data.map (fun c => if c = ':' then '_' else c))

/-- Go `strings.Join`. -/
def stringsJoin (xs : List String) (sep : String) : String :=
  sep.intercalate xs

/-- One step of the lexical processing done by Go `path/filepath.Clean`: the stack
of kept elements (innermost first) after reading one more element. -/
def cleanStep (rooted : Bool) (stack : List String) (elem : String) : List String :=
  if elem = "" ∨ elem = "." then stack
  else if elem = ".." then
    match stack with
    | [] => if rooted then [] else [".."]
    | top :: below => if top = ".." then ".." :: top :: below else below
  else elem :: stack

/-- The elements of a path between its slashes; `cur` holds the characters of the
element being read, last first. -/
def splitSlash : List Char → List Char → List String
  | [], cur => [String.mk cur.reverse]
  | c :: cs, cur =>
    if c = '/' then String.mk cur.reverse :: splitSlash cs [] else splitSlash cs (c :: cur)

/-- Go `path/filepath.Clean` on a slash-separated path. -/
def filepathClean (path : String) : String :=
  if path = "" then "."
  else
    let rooted := stringsHasPrefix path "/"
    let kept := ((splitSlash path.data []).foldl (cleanStep rooted) []).reverse
    let body := "/".intercalate kept
    if rooted then "/" ++ body
    else if body = "" then "." else body

/-- Go `path/filepath.Join`: the non-empty elements joined by `/`, then cleaned;
the empty string when every element is empty. -/
def filepathJoin (elems : List String) : String :=
  let nonEmpty := elems.filter (fun e => e ≠ "")
  if nonEmpty = [] then "" else filepathClean ("/".intercalate nonEmpty)

/-! ## Calls made to collaborators -/

/-- A call made by the embedded code, recorded in the order of execution. -/
inductive Event where
  /-- `portoConnect()`. -/
  | portoConnect
  /-- `portoConn.Close()`. -/
  | portoClose
  /-- `exec.CommandContext(..., cmd, args...).CombinedOutput()`. -/
  | exec (cmd : String) (args : List String)
  /-- `os.Open(path)`. -/
  | osOpen (path : String)
  /-- `portoConn.ImportLayer(name, path, false)`. -/
  | importLayer (name path : String)
  /-- `b.journal.InsertManifestLayers(app, layers)`. -/
  | journalInsert (app layers : String)
  /-- `journalContent.Set(b.journal.String())`. -/
  | journalContentSet
  /-- `reference.ParseNamed(s)`. -/
  | parseNamed (s : String)
  /-- `client.NewRepository(ctx, named, registry, tr)`; `auth` is the Authorization
  header added to the transport, if any. -/
  | newRepository (named registry : String) (auth : Option String)
  /-- `repo.Tags(ctx).Get(ctx, tag)` for the tag of the parsed reference. -/
  | tagsGet (named : String)
  /-- `repo.Manifests(ctx)`. -/
  | manifests (named : String)
  /-- `manifests.Get(ctx, digest)`. -/
  | manifestsGet (digest : String)
  /-- `b.blobRepo.Get(ctx, repo, digest)`. -/
  | blobGet (digest : String)
  /-- `b.GlobalState.Mtn.BindAllocs(ctx, netid)`. -/
  | bindAllocs (netid : String)
  /-- Entry into `Box.getLayersViaDownloadHelper` for the app. -/
  | enterHelper (app : String)
  /-- Entry into `Box.getLayersViaRegistry` for the app. -/
  | enterRegistry (app : String)
  /-- `spawningQueueSize.Inc(1)`. -/
  | gaugeInc
  /-- `spawningQueueSize.Dec(1)`. -/
  | gaugeDec
  /-- `b.journal.GetManifestLayers(app)`. -/
  | journalGet (app : String)
  /-- `b.spawnSM.Acquire(ctx)`. -/
  | semAcquire
  /-- `b.spawnSM.Release()`. -/
  | semRelease
  /-- `cfg.CreateRootVolume`. -/
  | createRootVolume (id : String)
  /-- `cfg.CreateExtraVolumes`. -/
  | createExtraVolumes (id : String)
  /-- `cfg.CreateContainer`. -/
  | createContainer (id : String)
  /-- `volume.Destroy(ctx, portoConn)`. -/
  | volumeDestroy (path : String)
  /-- `portoConn.Start(id)`. -/
  | start (id : String)
  /-- `isolate.NotifyAboutStart(output)`. -/
  | notifyAboutStart
  /-- Entry into `container.Cleanup` of the container with this engine id. -/
  | enterCleanup (id : String)
  /-- Entry into `container.Kill` of the container with this engine id. -/
  | enterKill (id : String)
  /-- `portoConn.Destroy(id)`. -/
  | destroy (id : String)
  /-- `os.RemoveAll(dir)`. -/
  | removeAll (dir : String)
  /-- `portoConn.GetData(id, stream)`. -/
  | getData (id stream : String)
  /-- `c.output.Write(data)` on the sink `output`. -/
  | outputWrite (output data : String)
  /-- `portoConn.Kill(id, syscall.SIGKILL)`. -/
  | kill (id : String)
  /-- `portoConn.Wait([]string{id}, 5*time.Second)`. -/
  | wait (id : String)
  /-- `portoConn.GetProperty(id, property)`. -/
  | getProperty (id property : String)
  /-- `portoConn.List()`. -/
  | list
  /-- `b.GlobalState.Mtn.UsedAllocations(ctx)`. -/
  | usedAllocations
  /-- `b.GlobalState.Mtn.UnuseAlloc(ctx, netId, id, reason)`. -/
  | unuseAlloc (netId id reason : String)
  /-- `portoConn.ListVolumes("", "")`. -/
  | listVolumes
  /-- `portoConn.UnlinkVolume(path, "***")`. -/
  | unlinkVolume (path : String)
  /-- `time.Sleep` of this many seconds at the top of the reaper loop. -/
  | sleep (seconds : Nat)
  deriving DecidableEq, Repr

/-! ## Profile, configuration, journal -/

/-- One element of `profile.ExtendedInfo.Layers`. -/
structure Layer where
  Digest : String
  DigestType : String
  Size : Nat
  TorrentId : String
  deriving DecidableEq, Repr

/-- The porto profile, as far as `box.go` reads it. `Network` is a Go map; a missing
key reads as the empty string. -/
structure Profile where
  Registry : String
  Repository : String
  ExtendedInfoLayers : List Layer
  Network : List (String × String)
  deriving DecidableEq, Repr

/-- Indexing a Go `map[string]string`: the zero value for a missing key. -/
def mapGet (m : List (String × String)) (key : String) : String :=
  (m.lookup key).getD ""

/-- `isolate.RawProfile`: `DecodeTo` either fills the profile or fails. -/
structure RawProfile where
  DecodeTo : Except GoError Profile

/-- The type `portoBoxConfig`. -/
structure portoBoxConfig where
  Layers : String
  Containers : String
  Journal : String
  SpawnConcurrency : Nat
  RegistryAuth : List (String × String)
  DialRetries : Int
  CleanupEnabled : Bool
  SetImgURI : Bool
  WeakEnabled : Bool
  Gc : Bool
  WaitLoopStepSec : Nat
  DefaultUlimits : String
  VolumeBackend : String
  DefaultResolvConf : String
  CocaineAppVolumeLabel : String
  DownloadHelperCmd : String
  deriving DecidableEq, Repr

/-- Modelled from the spec: the layer journal (`journal.go` is not among the
sources): each app name maps to at most one layer list, kept as the `;`-joined
string the box inserts. -/
structure journal where
  entries : List (String × String)
  deriving DecidableEq, Repr

/-- Modelled from the spec: `GetManifestLayers(app)`; an app without an entry reads
as the empty string, which `Box.Spawn` tests for. -/
def journal.GetManifestLayers (j : journal) (app : String) : String :=
  mapGet j.entries app

/-- Modelled from the spec: `InsertManifestLayers(app, "l1;l2;…")`; insertion
overwrites. -/
def journal.InsertManifestLayers (j : journal) (app layers : String) : journal :=
  ⟨(app, layers) :: j.entries.filter (fun e => e.1 ≠ app)⟩

/-! ## Containers and the box -/

/-- Modelled from the spec: the `Volume` interface (its declaration is not among the
sources); the embedding keeps the path that identifies the volume to `Destroy`. -/
structure Volume where
  Path : String
  deriving DecidableEq, Repr

/-- The type `container` of `container.go`. `output` names the `io.Writer` sink. -/
structure container where
  uuid : String
  containerID : String
  rootDir : String
  cleanupEnabled : Bool
  SetImgURI : Bool
  volume : Volume
  extraVolumes : List Volume
  output : String
  deriving DecidableEq, Repr

/-- The fields of `Box` that `Spool`, `Spawn` and `waitLoop` read or write.
`containers` is the Go map `map[string]*container`. -/
structure Box where
  Name : String
  config : portoBoxConfig
  journal : journal
  containers : List (String × container)
  dhEnable : Bool
  rootPrefix : String
  deriving DecidableEq, Repr

/-- The value `NewBox` gives to `dhEnable`: `config.DownloadHelperCmd != ""`. -/
def NewBox.dhEnable (config : portoBoxConfig) : Bool :=
  decide (config.DownloadHelperCmd ≠ "")

/-- The box returned by `NewBox` before the journal is loaded. -/
def NewBox (config : portoBoxConfig) (rootPrefix : String) : Box :=
  { Name := "porto"
    config := config
    journal := ⟨[]⟩
    containers := []
    dhEnable := NewBox.dhEnable config
    rootPrefix := rootPrefix }

/-! ## Spool -/

/-- A manifest returned by the registry, by the Go type that `getLayersViaRegistry`
switches on; `references` are the digests of `manifest.References()`. -/
inductive Manifest where
  | schema1 (references : List String)
  | schema2 (references : List String)
  | unknown (typeName : String) (references : List String)
  deriving DecidableEq, Repr

/-- The digests `manifest.References()` of a manifest. -/
def Manifest.References : Manifest → List String
  | .schema1 r => r
  | .schema2 r => r
  | .unknown _ r => r

/-- Modelled from the spec: `layerOrderV1` is not among the sources; v1 manifests
list layers top-down and are iterated in reverse. -/
def layerOrderV1 (references : List String) : List String := references.reverse

/-- Modelled from the spec: `layerOrderV2` is not among the sources; v2 manifests
list layers base-first and are iterated in order. -/
def layerOrderV2 (references : List String) : List String := references

/-- Answers of the collaborators of `Box.Spool`. An `Option GoError` is the `error`
result of the call (`none` is `nil`). `portoConnect` is keyed by the name of the
connecting function. -/
structure SpoolWorld where
  portoConnect : String → Option GoError
  exec : String → List String → Option GoError
  osOpen : String → Bool
  /-- `io.Copy(hashSum, f)` followed by `fmt.Sprintf("%x", hashSum.Sum(nil))`:
  `none` when the copy fails, else the hex SHA-256 of the file at the path. -/
  sha256Hex : String → Option String
  importLayer : String → String → Option GoError
  parseNamed : String → Except GoError String
  newRepository : String → String → Option String → Option GoError
  tagsGet : String → Except GoError String
  manifests : String → Option GoError
  manifestsGet : String → Except GoError Manifest
  blobGet : String → Except GoError String
  /-- `b.GlobalState.Mtn.Cfg.Enable`. -/
  mtnCfgEnable : Bool
  bindAllocs : String → Option GoError

/-- The Go results and effects of one image source: the returned `error`, the
journal afterwards and the calls made. -/
structure SourceResult where
  err : Option GoError
  journal : journal
  trace : List Event
  deriving DecidableEq, Repr

/-- The `-t` argument computed in `getLayersViaDownloadHelper`:
`fmt.Sprint(300 + uint(60 * (layer.Size / (100 * 1024 * 1024))))`. -/
def helperTimeout (size : Nat) : String :=
  toString ((300 + (60 * (size / (100 * 1024 * 1024))) % 2 ^ 64) % 2 ^ 64)

/-- The `for _, layer := range profile.ExtendedInfo.Layers` loop of
`getLayersViaDownloadHelper`; `layers` and `tr` are the layer names and the calls
accumulated so far. Returns the error that ends the loop early, if any. -/
def getLayersViaDownloadHelper.loop (w : SpoolWorld) (config : portoBoxConfig) :
    List Layer → List String → List Event → Option GoError × List String × List Event
  | [], layers, tr => (none, layers, tr)
  | layer :: rest, layers, tr =>
    let portoLayerName := layer.DigestType ++ "_" ++ layer.Digest
    let timeout := helperTimeout layer.Size
    let args := ["get", "-d", config.Layers, "-t", timeout, layer.TorrentId]
    let tr := tr ++ [Event.exec config.DownloadHelperCmd args]
    match w.exec config.DownloadHelperCmd args with
    | some err => (some err, layers, tr)
    | none =>
      let blobPath := filepathJoin [config.Layers, layer.Digest]
      let tr := tr ++ [Event.osOpen blobPath]
      if w.osOpen blobPath = false then
        (some (.errorf ("ERROR when open layer " ++ blobPath ++ " for check hashsumm.")),
          layers, tr)
      else
        match w.sha256Hex blobPath with
        | none =>
          (some (.errorf ("ERROR when copy layer " ++ blobPath ++ " for check hashsumm.")),
            layers, tr)
        | some digest =>
          if digest ≠ layer.Digest then
            (some (.errorf ("ERROR hashsum missmatch, hashSum.Sum(): " ++ digest
              ++ ", Digest: " ++ layer.Digest ++ ".")), layers, tr)
          else
            let tr := tr ++ [Event.importLayer portoLayerName blobPath]
            match w.importLayer portoLayerName blobPath with
            | some err =>
              if isEqualPortoError err "LayerAlreadyExists" = false then (some err, layers, tr)
              else getLayersViaDownloadHelper.loop w config rest (layers ++ [portoLayerName]) tr
            | none =>
              getLayersViaDownloadHelper.loop w config rest (layers ++ [portoLayerName]) tr

/-- The method `Box.getLayersViaDownloadHelper`. -/
def Box.getLayersViaDownloadHelper (w : SpoolWorld) (b : Box) (name : String)
    (profile : Profile) : SourceResult :=
  let tr := [Event.enterHelper name, Event.portoConnect]
  match w.portoConnect "getLayersViaDownloadHelper" with
  | some err => ⟨some err, b.journal, tr⟩
  | none =>
    match getLayersViaDownloadHelper.loop w b.config profile.ExtendedInfoLayers [] tr with
    | (some err, _, tr) => ⟨some err, b.journal, tr ++ [Event.portoClose]⟩
    | (none, layers, tr) =>
      let joined := stringsJoin layers ";"
      ⟨none, b.journal.InsertManifestLayers name joined,
        tr ++ [Event.journalInsert name joined, Event.portoClose]⟩

/-- The `for _, descriptor := range order(manifest.References())` loop of
`getLayersViaRegistry`. -/
def getLayersViaRegistry.loop (w : SpoolWorld) :
    List String → List String → List Event → Option GoError × List String × List Event
  | [], layers, tr => (none, layers, tr)
  | layerName :: rest, layers, tr =>
    let tr := tr ++ [Event.blobGet layerName]
    match w.blobGet layerName with
    | .error err => (some err, layers, tr)
    | .ok blobPath =>
      let portoLayerName := replaceColons layerName
      let tr := tr ++ [Event.importLayer portoLayerName blobPath]
      match w.importLayer portoLayerName blobPath with
      | some err =>
        if isEqualPortoError err "LayerAlreadyExists" = false then (some err, layers, tr)
        else getLayersViaRegistry.loop w rest (layers ++ [portoLayerName]) tr
      | none => getLayersViaRegistry.loop w rest (layers ++ [portoLayerName]) tr

/-- The part of `getLayersViaRegistry` after the manifest type switch has chosen
the order of the layers. -/
def getLayersViaRegistry.importAll (w : SpoolWorld) (b : Box) (name : String)
    (ordered : List String) (tr : List Event) : SourceResult :=
  let tr := tr ++ [Event.portoConnect]
  match w.portoConnect "getLayersViaRegistry" with
  | some err => ⟨some err, b.journal, tr⟩
  | none =>
    match getLayersViaRegistry.loop w ordered [] tr with
    | (some err, _, tr) => ⟨some err, b.journal, tr ++ [Event.portoClose]⟩
    | (none, layers, tr) =>
      let joined := stringsJoin layers ";"
      ⟨none, b.journal.InsertManifestLayers name joined,
        tr ++ [Event.journalInsert name joined, Event.portoClose]⟩

/-- The method `Box.getLayersViaRegistry`. -/
def Box.getLayersViaRegistry (w : SpoolWorld) (b : Box) (name : String)
    (profile : Profile) : SourceResult :=
  let tr := [Event.enterRegistry name]
  if profile.Registry = "" then
    ⟨some (.errorf "Registry must be non empty"), b.journal, tr⟩
  else
    let ref := filepathJoin [profile.Repository, profile.Repository, name]
    let tr := tr ++ [Event.parseNamed ref]
    match w.parseNamed ref with
    | .error err => ⟨some err, b.journal, tr⟩
    | .ok named =>
      let auth := b.config.RegistryAuth.lookup profile.Registry
      let registry :=
        if stringsHasPrefix profile.Registry "http" = false then "https://" ++ profile.Registry
        else profile.Registry
      let tr := tr ++ [Event.newRepository named registry auth]
      match w.newRepository named registry auth with
      | some err => ⟨some err, b.journal, tr⟩
      | none =>
        let tr := tr ++ [Event.tagsGet named]
        match w.tagsGet named with
        | .error err => ⟨some err, b.journal, tr⟩
        | .ok tagDigest =>
          let tr := tr ++ [Event.manifests named]
          match w.manifests named with
          | some err => ⟨some err, b.journal, tr⟩
          | none =>
            let tr := tr ++ [Event.manifestsGet tagDigest]
            match w.manifestsGet tagDigest with
            | .error err => ⟨some err, b.journal, tr⟩
            | .ok manifest =>
              match manifest with
              | .schema1 refs =>
                getLayersViaRegistry.importAll w b name (layerOrderV1 refs) tr
              | .schema2 refs =>
                getLayersViaRegistry.importAll w b name (layerOrderV2 refs) tr
              | .unknown typeName _ =>
                ⟨some (.errorf ("unknown manifest type " ++ typeName)), b.journal, tr⟩

/-- The Go results and effects of `Box.Spool`: the returned `error`, the box
afterwards and the calls made. -/
structure SpoolResult where
  err : Option GoError
  box : Box
  trace : List Event
  deriving DecidableEq, Repr

/-- The part of `Box.Spool` after the layers were obtained: publish the journal
and bind the network allocations. -/
def Box.Spool.bind (w : SpoolWorld) (b : Box) (profile : Profile) (tr : List Event) :
    SpoolResult :=
  let tr := tr ++ [Event.journalContentSet]
  if w.mtnCfgEnable = true ∧ mapGet profile.Network "mtn" = "enable" then
    let netid := mapGet profile.Network "netid"
    let tr := tr ++ [Event.bindAllocs netid]
    match w.bindAllocs netid with
    | some err =>
      ⟨some (.errorf ("Cant bind mtn alllocaton at spool with netid: " ++ netid
        ++ ", and error: " ++ err.Error)), b, tr⟩
    | none => ⟨none, b, tr⟩
  else ⟨none, b, tr⟩

/-- The part of `Box.Spool` from `if !layersImported` on, for a box `b` and calls
`tr` left by what ran before; `errGet` comes from the helper source when it ran. -/
def Box.Spool.finish (w : SpoolWorld) (b : Box) (name : String) (profile : Profile)
    (layersImported : Bool) (errGet : Option GoError) (tr : List Event) : SpoolResult :=
  if layersImported = false then
    let r := b.getLayersViaRegistry w name profile
    match r.err with
    | some err => ⟨some err, { b with journal := r.journal }, tr ++ r.trace⟩
    | none => Box.Spool.bind w { b with journal := r.journal } profile (tr ++ r.trace)
  else
    match errGet with
    | some err => ⟨some err, b, tr⟩
    | none => Box.Spool.bind w b profile tr

/-- The method `Box.Spool`. -/
def Box.Spool (w : SpoolWorld) (b : Box) (name : String) (opts : RawProfile) : SpoolResult :=
  match opts.DecodeTo with
  | .error err => ⟨some err, b, []⟩
  | .ok profile =>
    if profile.ExtendedInfoLayers.length > 0 ∧ b.dhEnable = true then
      let h := b.getLayersViaDownloadHelper w name profile
      match h.err with
      | some err =>
        Box.Spool.finish w { b with journal := h.journal } name profile false (some err) h.trace
      | none =>
        Box.Spool.finish w { b with journal := h.journal } name profile true none h.trace
    else
      Box.Spool.finish w b name profile false none []

/-! ## Containers: creation, start, kill, cleanup -/

/-- The fields of `containerConfig` (with its embedded `execInfo`) set by `Box.Spawn`;
the declaration of the type is not among the sources. -/
structure containerConfig where
  BoxName : String
  Root : String
  ID : String
  Layer : String
  CleanupEnabled : Bool
  SetImgURI : Bool
  VolumeBackend : String
  VolumeLabel : String
  Profile : Profile
  name : String
  executable : String
  ulimits : String
  resolv_conf : String
  args : List (String × String)
  env : List (String × String)
  deriving DecidableEq, Repr

/-- Answers of the porto engine and of the spawn semaphore. An `Option GoError` is the
`error` result of the call (`none` is `nil`). `portoConnect` is keyed by the name of
the connecting function. `getData` and `getProperty` give the returned string and the
error. The results of `volume.Destroy`, `portoConn.Destroy` and `os.RemoveAll` are only
logged by the code and are not part of the record. -/
structure EngineWorld where
  portoConnect : String → Option GoError
  acquire : Option GoError
  createRootVolume : containerConfig → Except GoError Volume
  createExtraVolumes : containerConfig → Volume → Except GoError (List Volume)
  createContainer : containerConfig → Volume → List Volume → Option GoError
  start : String → Option GoError
  getData : String → String → String × Option GoError
  kill : String → Option GoError
  wait : String → Option GoError
  getProperty : String → String → String × Option GoError

/-- The function `newContainer`. -/
def newContainer (w : EngineWorld) (cfg : containerConfig) :
    Except GoError container × List Event :=
  let tr := [Event.createRootVolume cfg.ID]
  match w.createRootVolume cfg with
  | .error err => (.error err, tr)
  | .ok volume =>
    let tr := tr ++ [Event.createExtraVolumes cfg.ID]
    match w.createExtraVolumes cfg volume with
    | .error err => (.error err, tr)
    | .ok extravolumes =>
      let tr := tr ++ [Event.createContainer cfg.ID]
      match w.createContainer cfg volume extravolumes with
      | some err => (.error err, tr ++ [Event.volumeDestroy volume.Path])
      | none =>
        (.ok { uuid := mapGet cfg.args "--uuid"
               containerID := cfg.ID
               rootDir := cfg.Root
               cleanupEnabled := cfg.CleanupEnabled
               SetImgURI := cfg.SetImgURI
               volume := volume
               extraVolumes := extravolumes
               output := "ioutil.Discard" }, tr)

/-- The method `container.start`: the container with `output` attached, the result of
`portoConn.Start` and the call made. -/
def container.start (w : EngineWorld) (c : container) (output : String) :
    container × Option GoError × List Event :=
  ({ c with output := output }, w.start c.containerID, [Event.start c.containerID])

/-- The method `container.Cleanup`. -/
def container.Cleanup (c : container) : List Event :=
  if c.cleanupEnabled = false then [Event.enterCleanup c.containerID]
  else
    [Event.enterCleanup c.containerID, Event.volumeDestroy c.volume.Path]
      ++ c.extraVolumes.map (fun v => Event.volumeDestroy v.Path)
      ++ [Event.destroy c.containerID, Event.removeAll c.rootDir]

/-- The body of `container.Kill` after the connection is open and before the deferred
calls run: forward stdout and stderr, send SIGKILL, wait. -/
def container.Kill.body (w : EngineWorld) (c : container) : Option GoError × List Event :=
  let out := w.getData c.containerID "stdout"
  let errs := w.getData c.containerID "stderr"
  let tr := [Event.getData c.containerID "stdout", Event.outputWrite c.output out.1,
    Event.getData c.containerID "stderr", Event.outputWrite c.output errs.1,
    Event.kill c.containerID]
  match w.kill c.containerID with
  | some err =>
    if isEqualPortoError err "InvalidState" = false then (some err, tr) else (none, tr)
  | none =>
    match w.wait c.containerID with
    | some err => (some err, tr ++ [Event.wait c.containerID])
    | none => (none, tr ++ [Event.wait c.containerID])

/-- The method `container.Kill`. The deferred `c.Cleanup(portoConn)` and
`portoConn.Close()` run, in this order, once the connection was opened. -/
def container.Kill (w : EngineWorld) (c : container) : Option GoError × List Event :=
  let tr := [Event.enterKill c.containerID, Event.portoConnect]
  match w.portoConnect "Kill" with
  | some err => (some err, tr)
  | none =>
    let r := container.Kill.body w c
    (r.1, tr ++ r.2 ++ c.Cleanup ++ [Event.portoClose])

/-! ## Spawn -/

/-- Assignment `m[key] = value` on the Go map of containers. -/
def containersSet (m : List (String × container)) (key : String) (value : container) :
    List (String × container) :=
  (key, value) :: m.filter (fun e => e.1 ≠ key)

/-- The call `delete(m, key)` on the Go map of containers. -/
def containersDelete (m : List (String × container)) (key : String) :
    List (String × container) :=
  m.filter (fun e => e.1 ≠ key)

/-- The type `isolate.SpawnConfig`. -/
structure SpawnConfig where
  Opts : RawProfile
  Name : String
  Executable : String
  Args : List (String × String)
  Env : List (String × String)

/-- The method `Box.appGenLabel`. -/
def Box.appGenLabel (_b : Box) (appname : String) : String :=
  replaceColons appname

/-- The method `Box.addRootNamespacePrefix`. -/
def Box.addRootNamespacePrefix (b : Box) (container : String) : String :=
  filepathJoin [b.rootPrefix, container]

/-- The Go results and effects of `Box.Spawn`: the returned process and `error`, the
box and the package-level gauge `spawningQueueSize` afterwards, and the calls made. -/
structure SpawnResult where
  pr : Option container
  err : Option GoError
  box : Box
  spawningQueueSize : Int
  trace : List Event
  deriving DecidableEq, Repr

/-- The `containerConfig` literal built in `Box.Spawn`. -/
def Box.Spawn.cfg (b : Box) (config : SpawnConfig) (profile : Profile) (layers : String) :
    containerConfig :=
  let ID := b.appGenLabel config.Name ++ "_" ++ mapGet config.Args "--uuid"
  { BoxName := b.Name
    Root := filepathJoin [b.config.Containers, ID]
    ID := b.addRootNamespacePrefix ID
    Layer := layers
    CleanupEnabled := b.config.CleanupEnabled
    SetImgURI := b.config.SetImgURI
    VolumeBackend := b.config.VolumeBackend
    VolumeLabel := b.config.CocaineAppVolumeLabel
    Profile := profile
    name := config.Name
    executable := config.Executable
    ulimits := b.config.DefaultUlimits
    resolv_conf := b.config.DefaultResolvConf
    args := config.Args
    env := config.Env }

/-- The part of `Box.Spawn` that runs while the semaphore is held: create the
container, register it, start it. `b.containers[pr.containerID] = pr` stores a pointer,
so the entry shows the `output` that `start` attaches. The deferred
`b.spawnSM.Release()` and `portoConn.Close()` run last. The counters
`containersCreatedCounter`, `containersErroredCounter` and `totalSpawnTimer` are not
part of the embedding. -/
def Box.Spawn.critical (w : EngineWorld) (b : Box) (cfg : containerConfig) (output : String)
    (q : Int) (tr : List Event) : SpawnResult :=
  match newContainer w cfg with
  | (.error err, tr1) =>
    ⟨none, some err, b, q, tr ++ tr1 ++ [Event.semRelease, Event.portoClose]⟩
  | (.ok pr, tr1) =>
    let started := pr.start w output
    let pr := started.1
    let b := { b with containers := containersSet b.containers pr.containerID pr }
    match started.2.1 with
    | some err =>
      ⟨none, some err, b, q,
        tr ++ tr1 ++ started.2.2 ++ pr.Cleanup ++ [Event.semRelease, Event.portoClose]⟩
    | none =>
      ⟨some pr, none, b, q,
        tr ++ tr1 ++ started.2.2
          ++ [Event.notifyAboutStart, Event.semRelease, Event.portoClose]⟩

/-- The method `Box.Spawn`. `q` is the value of the gauge `spawningQueueSize` when the
call begins; `spawningQueueSize.Count()` reads the gauge right after this call's
`Inc(1)`. -/
def Box.Spawn (w : EngineWorld) (b : Box) (q : Int) (config : SpawnConfig)
    (output : String) : SpawnResult :=
  match config.Opts.DecodeTo with
  | .error err => ⟨none, some err, b, q, []⟩
  | .ok profile =>
    let q := q + 1
    let tr := [Event.gaugeInc]
    if q > 10 then
      ⟨none, some .eagain, b, q - 1, tr ++ [Event.gaugeDec]⟩
    else
      let layers := b.journal.GetManifestLayers config.Name
      let tr := tr ++ [Event.journalGet config.Name]
      if layers = "" then
        ⟨none, some (.errorf "no layers in the journal for the app"), b, q, tr⟩
      else
        let cfg := Box.Spawn.cfg b config profile layers
        let tr := tr ++ [Event.portoConnect]
        match w.portoConnect "Spawn" with
        | some err => ⟨none, some err, b, q, tr⟩
        | none =>
          let tr := tr ++ [Event.semAcquire, Event.gaugeDec]
          match w.acquire with
          | some _ => ⟨none, some .spawningCancelled, b, q - 1, tr ++ [Event.portoClose]⟩
          | none => Box.Spawn.critical w b cfg output (q - 1) tr

/-! ## The session dispatchers -/

/-- Request opcode `spool` of `initialdispatch.go`. -/
def spool : Nat := 0
/-- Request opcode `spawn`. -/
def spawn : Nat := 1
/-- Request opcode `spawnKill`. -/
def spawnKill : Nat := 0
/-- Reply opcode `replySpoolOk`. -/
def replySpoolOk : Nat := 0
/-- Reply opcode `replySpoolError`. -/
def replySpoolError : Nat := 1
/-- Reply opcode `replySpawnWrite`. -/
def replySpawnWrite : Nat := 0
/-- Reply opcode `replySpawnError`. -/
def replySpawnError : Nat := 1
/-- Reply opcode `replySpawnClose`. -/
def replySpawnClose : Nat := 2
/-- Reply opcode `replyKillOk` of `spawndispatch.go`. -/
def replyKillOk : Nat := 0
/-- Reply opcode `replyKillError`. -/
def replyKillError : Nat := 1

/-- An argument of a `reply(ctx, code, args...)` call. -/
inductive ReplyArg where
  /-- A `[2]int{a, b}` code pair. -/
  | codes (a b : Int)
  /-- A string. -/
  | str (s : String)
  /-- A `[]byte`. -/
  | bytes (data : List UInt8)
  /-- The untyped `nil`. -/
  | nil
  /-- The package value `errKillError` (declared outside the sources). -/
  | errKillError
  deriving DecidableEq, Repr

/-- One `reply(ctx, code, args...)` call: a frame sent to the client. -/
structure Reply where
  code : Nat
  args : List ReplyArg
  deriving DecidableEq, Repr

/-- The type `message`: the opcode and the packed arguments of a request. -/
structure message where
  Number : Nat
  Args : List String
  deriving DecidableEq, Repr

/-- The `isolate.Profile` seen by the dispatcher: `isolateType` is the result of
`opts.Type()`, `render` is the text `fmt` prints for the value with `%v`. -/
structure IsolateProfile where
  isolateType : String
  render : String
  deriving DecidableEq, Repr

/-- A value of the interface `Process` held by a dispatcher: `name` identifies it,
`Kill` is the `error` its method `Kill()` returns. -/
structure Process where
  name : String
  Kill : Option GoError
  deriving DecidableEq, Repr

/-- One value of the channel `pr.Output()`. -/
structure ProcessOutput where
  Data : List UInt8
  Err : Option GoError
  deriving DecidableEq, Repr

/-- A value of the interface `isolate.Box` found in `getBoxes(ctx)`: `Spawn` is the
result of its method for the given app name, executable, args and env. Its method
`Spool` runs in a goroutine of its own, outside `Handle`. -/
structure IsolateBox where
  Spawn : IsolateProfile → String → String → List (String × String) → List (String × String)
    → Except GoError Process

/-- What the initial dispatcher gets from its context: the answers of `unpackArgs` for
the two request shapes, and the boxes of `getBoxes(ctx)` by isolation type. -/
structure DispatchWorld where
  unpackSpool : List String → Except GoError (IsolateProfile × String)
  unpackSpawn : List String → Except GoError
    (IsolateProfile × String × String × List (String × String) × List (String × String))
  boxes : List (String × IsolateBox)

/-- The dispatcher returned as the successor state. -/
inductive Dispatcher where
  /-- The result of `newSpoolCancelationDispatch(ctx, cancel)`. -/
  | spoolCancelation
  /-- The result of `newSpawnDispatch(d.ctx, pr)`. -/
  | spawnDispatch (pr : Process)
  deriving DecidableEq, Repr

/-- What a `Handle` call does besides returning. -/
inductive Effect where
  /-- A `reply(...)` call made before `Handle` returns. -/
  | reply (r : Reply)
  /-- The goroutine that runs `box.Spool(ctx, name, opts)` on the box of this
  isolation type and replies with its outcome. -/
  | goSpool (isolateType name : String) (opts : IsolateProfile)
  /-- The goroutine that forwards `pr.Output()` to the client. -/
  | goOutput (pr : Process)
  /-- The goroutine started for a `spawnKill` message. -/
  | goKill
  deriving DecidableEq, Repr

/-- The outcome of a `Handle` call: it returns `(Dispatcher, error)` after some effects,
or it panics. -/
inductive Handled where
  | returned (next : Option Dispatcher) (err : Option GoError) (effects : List Effect)
  | panic
  deriving DecidableEq, Repr

/-- The method `initialDispatch.onSpool`. The log call at its top indexes `msg.Args[0]`
and `msg.Args[1]`, which panics on a shorter slice. -/
def initialDispatch.onSpool (w : DispatchWorld) (msg : message) : Handled :=
  if msg.Args.length < 2 then .panic
  else
    match w.unpackSpool msg.Args with
    | .error err =>
      .returned none (some err)
        [.reply ⟨replySpoolError,
          [.codes 42 42, .str ("unbale to unpack args: " ++ err.Error)]⟩]
    | .ok (opts, name) =>
      let isolateType := opts.isolateType
      if isolateType = "" then
        let err := GoError.errorf ("the profile does not have `type` option: " ++ opts.render)
        .returned none (some err) [.reply ⟨replySpoolError, [.codes 42 42, .str err.Error]⟩]
      else
        match w.boxes.lookup isolateType with
        | none =>
          let err := GoError.errorf ("isolate type " ++ isolateType ++ " is not available")
          .returned none (some err) [.reply ⟨replySpoolError, [.codes 42 42, .str err.Error]⟩]
        | some _ =>
          .returned (some .spoolCancelation) none [.goSpool isolateType name opts]

/-- The method `initialDispatch.onSpawn`. -/
def initialDispatch.onSpawn (w : DispatchWorld) (msg : message) : Handled :=
  match w.unpackSpawn msg.Args with
  | .error err => .returned none (some err) []
  | .ok (opts, name, executable, args, env) =>
    let isolateType := opts.isolateType
    if isolateType = "" then
      .returned none (some (.errorf ("corrupted profile: " ++ opts.render))) []
    else
      match w.boxes.lookup isolateType with
      | none =>
        .returned none
          (some (.errorf ("isolate type " ++ isolateType ++ " is not available"))) []
      | some box =>
        match box.Spawn opts name executable args env with
        | .error err => .returned none (some err) []
        | .ok pr => .returned (some (.spawnDispatch pr)) none [.goOutput pr]

/-- The method `initialDispatch.Handle`. -/
def initialDispatch.Handle (w : DispatchWorld) (msg : message) : Handled :=
  if msg.Number = spool then initialDispatch.onSpool w msg
  else if msg.Number = spawn then initialDispatch.onSpawn w msg
  else .returned none (some (.errorf ("unknown transition id: " ++ toString msg.Number))) []

/-- The method `spawnDispatch.Handle`, as far as the caller sees it: for `spawnKill`
it starts the kill goroutine and returns `nil, nil`. -/
def spawnDispatch.Handle (msg : message) : Handled :=
  if msg.Number = spawnKill then .returned none none [.goKill]
  else .returned none (some (.errorf ("unknown transition id: " ++ toString msg.Number))) []

/-! ### The kill goroutines of a `spawnDispatch` -/

/-- Where a goroutine started by `spawnDispatch.Handle` for `spawnKill` stands. -/
inductive KillTask where
  /-- At the `select`. -/
  | selecting
  /-- Received `pr` with `ok == true`; the compare-and-swap is next. -/
  | received (pr : Process)
  /-- The compare-and-swap returned true; `pr.Kill()` is next. -/
  | swapped (pr : Process)
  /-- `pr.Kill()` returned `err`; the reply is next. -/
  | killed (err : Option GoError)
  /-- Returned. -/
  | finished
  deriving DecidableEq, Repr

/-- A `spawnDispatch` with what it shares with its goroutines: the word `*killed`, the
channel `process` (the values still to be received and whether it is closed), the
context, the goroutines started so far, and, for the record, the `Kill()` calls and
the replies made. -/
structure SpawnSession where
  killed : Nat
  process : List Process
  processClosed : Bool
  ctxDone : Bool
  tasks : List KillTask
  kills : List Process
  replies : List Reply
  deriving DecidableEq, Repr

/-- The function `newSpawnDispatch(ctx, prCh, flagKilled)`: no goroutine yet. -/
def newSpawnDispatch (prCh : List Process) (prChClosed : Bool) (flagKilled : Nat) :
    SpawnSession :=
  { killed := flagKilled, process := prCh, processClosed := prChClosed, ctxDone := false,
    tasks := [], kills := [], replies := [] }

/-- What can happen next in a session in the `SpawnStreaming` state. -/
inductive SessionStep where
  /-- The dispatcher handles a message. -/
  | handle (msg : message)
  /-- Goroutine `i` runs up to its next shared access; at the `select` it takes the
  channel branch if the channel is ready. -/
  | task (i : Nat)
  /-- Goroutine `i`, at the `select`, takes the `ctx.Done()` branch if it is ready. -/
  | taskCtxDone (i : Nat)
  /-- The session context is cancelled. -/
  | cancel
  /-- The producer sends a process on the channel. -/
  | send (pr : Process)
  /-- The producer closes the channel. -/
  | close
  /-- Another holder of the flag does the same `CompareAndSwapUint32(killed, 0, 1)`. -/
  | otherSwap
  deriving DecidableEq, Repr

/-- One step of goroutine `i` of the kill goroutine body in `spawnDispatch.Handle`. -/
def SpawnSession.runTask (s : SpawnSession) (i : Nat) : SpawnSession :=
  match s.tasks.get? i with
  | none => s
  | some .selecting =>
    match s.process with
    | pr :: rest => { s with process := rest, tasks := s.tasks.set i (.received pr) }
    | [] => if s.processClosed then { s with tasks := s.tasks.set i .finished } else s
  | some (.received pr) =>
    if s.killed = 0 then { s with killed := 1, tasks := s.tasks.set i (.swapped pr) }
    else { s with tasks := s.tasks.set i .finished }
  | some (.swapped pr) =>
    { s with kills := s.kills ++ [pr], tasks := s.tasks.set i (.killed pr.Kill) }
  | some (.killed (some err)) =>
    { s with replies := s.replies ++ [⟨replyKillError, [.errKillError, .str err.Error]⟩],
             tasks := s.tasks.set i .finished }
  | some (.killed none) =>
    { s with replies := s.replies ++ [⟨replyKillOk, [.nil]⟩],
             tasks := s.tasks.set i .finished }
  | some .finished => s

/-- One step of the session. A message is handled by `spawnDispatch.Handle`; its
`goKill` effect adds a goroutine. -/
def SpawnSession.step (s : SpawnSession) : SessionStep → SpawnSession
  | .handle msg =>
    match spawnDispatch.Handle msg with
    | .returned _ _ effects =>
      if Effect.goKill ∈ effects then { s with tasks := s.tasks ++ [.selecting] } else s
    | .panic => s
  | .task i => s.runTask i
  | .taskCtxDone i =>
    match s.tasks.get? i with
    | some .selecting => if s.ctxDone then { s with tasks := s.tasks.set i .finished } else s
    | _ => s
  | .cancel => { s with ctxDone := true }
  | .send pr => if s.processClosed then s else { s with process := s.process ++ [pr] }
  | .close => { s with processClosed := true }
  | .otherSwap => if s.killed = 0 then { s with killed := 1 } else s

/-- The session after a sequence of steps. -/
def SpawnSession.run (s : SpawnSession) (steps : List SessionStep) : SpawnSession :=
  steps.foldl SpawnSession.step s

/-- Weight of a kill goroutine that won the compare-and-swap and has not called
`Kill()` yet. -/
def KillTask.holdsSwap : KillTask → Nat
  | .swapped _ => 1
  | _ => 0

/-- Weight of a kill goroutine whose `Kill()` returned and which has not replied yet. -/
def KillTask.holdsResult : KillTask → Nat
  | .killed _ => 1
  | _ => 0

/-- The invariant of a `spawnDispatch` session: at most one goroutine ever wins the
compare-and-swap, none while the flag is still 0; every `Kill()` call comes from a
winner, and every reply from a `Kill()` call. -/
def SpawnSession.inv (s : SpawnSession) : Prop :=
  (s.tasks.map KillTask.holdsSwap).sum + s.kills.length ≤ 1 ∧
  (s.tasks.map KillTask.holdsResult).sum + s.replies.length = s.kills.length ∧
  (s.killed = 0 → (s.tasks.map KillTask.holdsSwap).sum + s.kills.length = 0)

/-! ### The output goroutine of `initialDispatch.onSpawn` -/

/-- The goroutine that forwards `pr.Output()`: the values still in the channel,
whether the channel is closed, the context, whether the goroutine has returned, and
the replies made. -/
structure OutputTask where
  output : List ProcessOutput
  outputClosed : Bool
  ctxDone : Bool
  returned : Bool
  replies : List Reply
  deriving DecidableEq, Repr

/-- The reply made for one received value: the body of the `case output := <-pr.Output()`
branch. -/
def OutputTask.forward (output : ProcessOutput) : Reply :=
  match output.Err with
  | some err => ⟨replySpawnError, [.codes 42 42, .str err.Error]⟩
  | none => ⟨replySpawnWrite, [.bytes output.Data]⟩

/-- What can happen next to the output goroutine. -/
inductive OutputStep where
  /-- The `select` takes the channel branch, if the channel is ready: a buffered value,
  or the zero value of a closed channel. -/
  | receive
  /-- The `select` takes the `ctx.Done()` branch, if it is ready. -/
  | ctxDone
  /-- The session context is cancelled. -/
  | cancel
  /-- The process sends a value on the channel. -/
  | send (output : ProcessOutput)
  /-- The process closes the channel. -/
  | close
  deriving DecidableEq, Repr

/-- One step of the output goroutine of `initialDispatch.onSpawn` and its
environment. -/
def OutputTask.step (t : OutputTask) : OutputStep → OutputTask
  | .receive =>
    if t.returned then t
    else
      match t.output with
      | output :: rest =>
        { t with output := rest, replies := t.replies ++ [OutputTask.forward output] }
      | [] =>
        if t.outputClosed then
          { t with replies := t.replies ++ [OutputTask.forward ⟨[], none⟩] }
        else t
  | .ctxDone => if t.ctxDone then { t with returned := true } else t
  | .cancel => { t with ctxDone := true }
  | .send output =>
    if t.outputClosed then t else { t with output := t.output ++ [output] }
  | .close => { t with outputClosed := true }

/-- The output goroutine after a sequence of steps. -/
def OutputTask.run (t : OutputTask) (steps : List OutputStep) : OutputTask :=
  steps.foldl OutputTask.step t

/-- The output goroutine when it starts, for a process whose channel holds `output`. -/
def OutputTask.start (output : List ProcessOutput) (closed : Bool) : OutputTask :=
  { output := output, outputClosed := closed, ctxDone := false, returned := false,
    replies := [] }

/-! ## The reaper pass of `waitLoop` -/

/-- The block that `waitLoop` runs for a tracked id seen as gone or dead: under the
mutex, look the id up and delete it if present; after unlocking, call `Kill()` on the
container that was found. Returns the box and the calls made. -/
def Box.waitLoop.remove (w : EngineWorld) (b : Box) (ourContainer : String) :
    Box × List Event :=
  match b.containers.lookup ourContainer with
  | some container =>
    ({ b with containers := containersDelete b.containers ourContainer }, (container.Kill w).2)
  | none => (b, [])

/-- How the body of `for _, ourContainer := range ourContainers` ends for one id. -/
inductive Visited where
  /-- The loop goes on with the next id. -/
  | next (b : Box) (tr : List Event)
  /-- `continue LOOP`: the connection was closed and dropped, the pass is over. -/
  | dropped (b : Box) (tr : List Event)
  /-- The type assertion `err.(*porto.Error)` panicked. -/
  | panic (b : Box) (tr : List Event)

/-- The body of `for _, ourContainer := range ourContainers` in `waitLoop`. After the
`ContainerDoesNotExist` case the code goes on to the `dead` test with the state string
that came with the error. -/
def Box.waitLoop.visit (w : EngineWorld) (b : Box) (ourContainer : String) : Visited :=
  let answer := w.getProperty ourContainer "state"
  let containerState := answer.1
  let tr := [Event.getProperty ourContainer "state"]
  match answer.2 with
  | some (.porto errName _) =>
    if errName = "ContainerDoesNotExist" then
      let r := Box.waitLoop.remove w b ourContainer
      if containerState = "dead" then
        let r2 := Box.waitLoop.remove w r.1 ourContainer
        .next r2.1 (tr ++ r.2 ++ r2.2)
      else .next r.1 (tr ++ r.2)
    else .dropped b (tr ++ [Event.portoClose])
  | some _ => .panic b tr
  | none =>
    if containerState = "dead" then
      let r := Box.waitLoop.remove w b ourContainer
      .next r.1 (tr ++ r.2)
    else .next b tr

/-- The loop `for _, ourContainer := range ourContainers` of `waitLoop`, from a box `b`
and the calls `tr` made so far in the pass. -/
def Box.waitLoop.visitAll (w : EngineWorld) : List String → Box → List Event → Visited
  | [], b, tr => .next b tr
  | ourContainer :: rest, b, tr =>
    match Box.waitLoop.visit w b ourContainer with
    | .next b1 tr1 => Box.waitLoop.visitAll w rest b1 (tr ++ tr1)
    | .dropped b1 tr1 => .dropped b1 (tr ++ tr1)
    | .panic b1 tr1 => .panic b1 (tr ++ tr1)

/-- One pass of the reaper loop of `waitLoop` with an open engine connection: snapshot
the keys of the containers map, then visit each. The snapshot is taken in the order of
the entries (Go does not fix the order of a map range). -/
def Box.waitLoop.pass (w : EngineWorld) (b : Box) : Visited :=
  Box.waitLoop.visitAll w (b.containers.map (fun e => e.1)) b []

/-! ### Client kill against the reaper -/

/-- A registered container held by a `spawnDispatch`, together with the box: the flag
of the dispatcher, the calls made by its kill goroutine, the calls made by the reaper,
and whether the reaper goroutine has panicked. -/
structure KillRace where
  box : Box
  killed : Nat
  clientTrace : List Event
  reaperTrace : List Event
  reaperDown : Bool

/-- What can happen next to the container: the dispatcher's kill goroutine gets to its
compare-and-swap, or the reaper makes a pass. Each comes with the answers the engine
gives at that time. -/
inductive RaceStep where
  | clientKill (w : EngineWorld)
  | reaperPass (w : EngineWorld)

/-- One step of the race around the container `c` held by the dispatcher. The kill
goroutine calls `pr.Kill()` iff its compare-and-swap of `killed` from 0 to 1 succeeds;
the reaper runs `Box.waitLoop.pass`. -/
def KillRace.step (c : container) (s : KillRace) : RaceStep → KillRace
  | .clientKill w =>
    if s.killed = 0 then
      { s with killed := 1, clientTrace := s.clientTrace ++ (c.Kill w).2 }
    else s
  | .reaperPass w =>
    if s.reaperDown then s
    else
      match Box.waitLoop.pass w s.box with
      | .next b tr => { s with box := b, reaperTrace := s.reaperTrace ++ tr }
      | .dropped b tr => { s with box := b, reaperTrace := s.reaperTrace ++ tr }
      | .panic b tr =>
        { s with box := b, reaperTrace := s.reaperTrace ++ tr, reaperDown := true }

/-- The race after a sequence of steps. -/
def KillRace.run (c : container) (s : KillRace) (steps : List RaceStep) : KillRace :=
  steps.foldl (KillRace.step c) s

/-- The race when it starts: nothing was called yet. -/
def KillRace.start (b : Box) (flagKilled : Nat) : KillRace :=
  { box := b, killed := flagKilled, clientTrace := [], reaperTrace := [], reaperDown := false }

/-- Every entry of the containers map is stored under the engine id of its container,
as `Box.Spawn` stores it. -/
def Box.wellKeyed (b : Box) : Prop :=
  ∀ e ∈ b.containers, e.2.containerID = e.1

/-- The reaper's part of the invariant: the map is well keyed, the reaper has run
`Cleanup` for `id` at most once, and not at all while `id` is still a key. -/
def reaperInv (id : String) (b : Box) (tr : List Event) : Prop :=
  b.wellKeyed ∧ tr.count (Event.enterCleanup id) ≤ 1 ∧
    (b.containers.lookup id ≠ none → tr.count (Event.enterCleanup id) = 0)

/-- What `reaperInv` says about the end of a visit or of a pass. -/
def Visited.inv (id : String) (tr0 : List Event) : Visited → Prop
  | .next b tr => reaperInv id b (tr0 ++ tr)
  | .dropped b tr => reaperInv id b (tr0 ++ tr)
  | .panic b tr => reaperInv id b (tr0 ++ tr)

/-- The invariant of the race around the container `c`. -/
def KillRace.inv (c : container) (s : KillRace) : Prop :=
  s.clientTrace.count (Event.enterCleanup c.containerID) ≤ 1 ∧
  (s.killed = 0 → s.clientTrace.count (Event.enterCleanup c.containerID) = 0) ∧
  reaperInv c.containerID s.box s.reaperTrace

/-! ## The start of `waitLoop`: the GC pass -/

/-- Modelled from the spec: an allocation that the allocation service reports as used
(the declaration of the type is not among the sources), with the fields that
`waitLoop` reads. -/
structure Allocation where
  Ip : String
  Box : String
  NetId : String
  Id : String
  deriving DecidableEq, Repr

/-- A volume description returned by `portoConn.ListVolumes`. -/
structure VolumeDescription where
  Path : String
  Properties : List (String × String)
  deriving DecidableEq, Repr

/-- Answers of the collaborators of the start of `waitLoop`: the first
`portoConnect()`, `portoConn.List()`, `UsedAllocations` (the allocations, the
diagnostic `stat` and the error), `GetProperty` and `ListVolumes`. The results of
`Destroy`, `UnuseAlloc` and `UnlinkVolume` are not looked at by the code. -/
structure GcWorld where
  portoConnect : Option GoError
  list : List String × Option GoError
  usedAllocations : List Allocation × String × Option GoError
  getProperty : String → String → String × Option GoError
  listVolumes : List VolumeDescription × Option GoError

/-- The loop `for _, name := range containerNames` of the GC pass: dead and stopped
containers are destroyed, the IPs of running and starting ones are collected. -/
def Box.waitLoop.collectIps (w : GcWorld) :
    List String → List String → List Event → List String × List Event
  | [], ips, tr => (ips, tr)
  | name :: rest, ips, tr =>
    let containerState := (w.getProperty name "state").1
    let tr := tr ++ [Event.getProperty name "state"]
    if containerState = "dead" then
      Box.waitLoop.collectIps w rest ips (tr ++ [Event.destroy name])
    else if containerState = "stopped" then
      Box.waitLoop.collectIps w rest ips (tr ++ [Event.destroy name])
    else if containerState = "meta" then
      Box.waitLoop.collectIps w rest ips tr
    else if containerState = "running" ∨ containerState = "starting" then
      let containerIp := (w.getProperty name "ip").1
      let tr := tr ++ [Event.getProperty name "ip"]
      if containerIp.utf8ByteSize > 2 then
        Box.waitLoop.collectIps w rest (ips ++ [containerIp]) tr
      else Box.waitLoop.collectIps w rest ips tr
    else Box.waitLoop.collectIps w rest ips tr

/-- The inner loop `for _, ip := range ips` of the removal loop: whether it reaches
its `break`, that is whether some live IP equals the IP of the allocation. -/
def Box.waitLoop.ipIsLive (usedAllocation : Allocation) : List String → Bool
  | [] => false
  | ip :: rest =>
    if usedAllocation.Ip = ip then true else Box.waitLoop.ipIsLive usedAllocation rest

/-- The removal loop `for i := 0; i < len(usedAllocations); i++` of the GC pass, from
the slice `usedAllocations` and the index `i` (a Go `int`). On a match the element at
`i` is cut out of the slice and `i` is decremented before the loop's `i++`. `fuel`
bounds the number of iterations; `none` stands for running out of it or for an index
out of range. -/
def Box.waitLoop.dropLive (ips : List String) :
    Nat → List Allocation → Int → Option (List Allocation)
  | 0, usedAllocations, i =>
    if i < usedAllocations.length then none else some usedAllocations
  | fuel + 1, usedAllocations, i =>
    if i < usedAllocations.length then
      if i < 0 then none
      else
        match usedAllocations.get? i.toNat with
        | none => none
        | some usedAllocation =>
          if Box.waitLoop.ipIsLive usedAllocation ips then
            let usedAllocations :=
              usedAllocations.take i.toNat ++ usedAllocations.drop (i.toNat + 1)
            let i := i - 1
            Box.waitLoop.dropLive ips fuel usedAllocations (i + 1)
          else Box.waitLoop.dropLive ips fuel usedAllocations (i + 1)
    else some usedAllocations

/-- The loop `for _, usedAllocation := range usedAllocations` of the GC pass that frees
the allocations of this box. -/
def Box.waitLoop.unuseAll (name : String) : List Allocation → List Event
  | [] => []
  | usedAllocation :: rest =>
    if usedAllocation.Box = name then
      Event.unuseAlloc usedAllocation.NetId usedAllocation.Id "GC state"
        :: Box.waitLoop.unuseAll name rest
    else Box.waitLoop.unuseAll name rest

/-- The part of the GC pass that works on the used allocations, given the live IPs
collected: the removal loop (run only when both lists are non-empty), then the loop
that frees what is left. Returns the `UnuseAlloc` calls made. -/
def Box.waitLoop.freeAllocations (b : Box) (usedAllocations : List Allocation)
    (ips : List String) : Option (List Event) :=
  let remaining :=
    if usedAllocations.length > 0 ∧ ips.length > 0 then
      Box.waitLoop.dropLive ips usedAllocations.length usedAllocations 0
    else some usedAllocations
  match remaining with
  | none => none
  | some usedAllocations =>
    if usedAllocations.length > 0 then some (Box.waitLoop.unuseAll b.Name usedAllocations)
    else some []

/-- The loop `for _, volume := range volumes` of the GC pass. -/
def Box.waitLoop.unlinkVolumes (label : String) : List VolumeDescription → List Event
  | [] => []
  | volume :: rest =>
    if mapGet volume.Properties "Private" = label then
      Event.unlinkVolume volume.Path :: Box.waitLoop.unlinkVolumes label rest
    else Box.waitLoop.unlinkVolumes label rest

/-- Whether an event is a call of `UnuseAlloc`. -/
def Event.isUnuseAlloc : Event → Bool
  | .unuseAlloc _ _ _ => true
  | _ => false

/-- The live IPs that the GC pass collects from the containers the engine lists. -/
def Box.waitLoop.liveIps (w : GcWorld) : List String :=
  (Box.waitLoop.collectIps w w.list.1 [] []).1

/-- How the part of `waitLoop` before the label `LOOP` ends. -/
inductive Startup where
  /-- `waitLoop` returned: the goroutine is over. -/
  | returned (tr : List Event)
  /-- The goroutine panicked. -/
  | panic (tr : List Event)
  /-- Control reaches `LOOP`; `connected` tells whether `portoConn` is non-nil. -/
  | loop (connected : Bool) (tr : List Event)
  deriving DecidableEq, Repr

/-- The body of `if b.config.Gc` in `waitLoop`, run with an open connection. -/
def Box.waitLoop.gc (w : GcWorld) (b : Box) (tr : List Event) : Startup :=
  let containerNames := w.list.1
  let tr := tr ++ [Event.list, Event.usedAllocations]
  match w.usedAllocations.2.2 with
  | some _ => .returned tr
  | none =>
    let collected := Box.waitLoop.collectIps w containerNames [] tr
    match Box.waitLoop.freeAllocations b w.usedAllocations.1 collected.1 with
    | none => .panic collected.2
    | some unused =>
      let tr := collected.2 ++ unused ++ [Event.listVolumes]
      match w.listVolumes.2 with
      | some _ => .loop true tr
      | none =>
        .loop true (tr ++ Box.waitLoop.unlinkVolumes b.config.CocaineAppVolumeLabel w.listVolumes.1)

/-- The part of `waitLoop` before the label `LOOP`. When `portoConnect()` fails,
`portoConn` is nil (the loop below tests `portoConn == nil` for this), and the GC pass
panics on its first call, `portoConn.List()`. -/
def Box.waitLoop.startup (w : GcWorld) (b : Box) : Startup :=
  let tr := [Event.portoConnect]
  let connected := w.portoConnect.isNone
  if b.config.Gc = true then
    if connected = false then .panic tr else Box.waitLoop.gc w b tr
  else .loop connected tr

/-- The calls made before the label `LOOP`. -/
def Startup.trace : Startup → List Event
  | .returned tr => tr
  | .panic tr => tr
  | .loop _ tr => tr

/-- What one iteration of the reaper loop meets: whether the box context is done when
`closed` looks at it after the sleep, the answers of the engine during the iteration,
and whether the context is done by the end of the one-second wait that follows a
failed reconnect. -/
structure Tick where
  ctxDone : Bool
  engine : EngineWorld
  ctxDoneAfterWait : Bool

/-- The state of `waitLoop` after some iterations: the box, the calls made, the number
of iterations of the reaper loop begun, and whether the goroutine is still in the
loop. -/
structure WaitLoopResult where
  box : Box
  trace : List Event
  iterations : Nat
  running : Bool

/-- The reaper loop `LOOP: for { ... }` of `waitLoop`, one iteration per tick. -/
def Box.waitLoop.iterate :
    List Tick → Box → Bool → List Event → Nat → WaitLoopResult
  | [], b, _, tr, n => ⟨b, tr, n, true⟩
  | t :: rest, b, connected, tr, n =>
    let tr := tr ++ [Event.sleep b.config.WaitLoopStepSec]
    if t.ctxDone then
      ⟨b, if connected then tr ++ [Event.portoClose] else tr, n + 1, false⟩
    else if connected = false then
      let tr := tr ++ [Event.portoConnect]
      match t.engine.portoConnect "waitLoop" with
      | some _ =>
        if t.ctxDoneAfterWait then ⟨b, tr, n + 1, false⟩
        else Box.waitLoop.iterate rest b false tr (n + 1)
      | none =>
        match Box.waitLoop.pass t.engine b with
        | .next b1 tr1 => Box.waitLoop.iterate rest b1 true (tr ++ tr1) (n + 1)
        | .dropped b1 tr1 => Box.waitLoop.iterate rest b1 false (tr ++ tr1) (n + 1)
        | .panic b1 tr1 => ⟨b1, tr ++ tr1, n + 1, false⟩
    else
      match Box.waitLoop.pass t.engine b with
      | .next b1 tr1 => Box.waitLoop.iterate rest b1 true (tr ++ tr1) (n + 1)
      | .dropped b1 tr1 => Box.waitLoop.iterate rest b1 false (tr ++ tr1) (n + 1)
      | .panic b1 tr1 => ⟨b1, tr ++ tr1, n + 1, false⟩

/-- The method `Box.waitLoop`, followed for as many iterations of its loop as there are
ticks. -/
def Box.waitLoop (w : GcWorld) (b : Box) (ticks : List Tick) : WaitLoopResult :=
  match Box.waitLoop.startup w b with
  | .returned tr => ⟨b, tr, 0, false⟩
  | .panic tr => ⟨b, tr, 0, false⟩
  | .loop connected tr => Box.waitLoop.iterate ticks b connected tr 0

/-- Whether an event is the entry into one of the two image sources. -/
def Event.isSourceEntry : Event → Bool
  | .enterHelper _ => true
  | .enterRegistry _ => true
  | _ => false

/-- Whether an event belongs to the last part of `Box.Spool`, after the layers were
obtained: publishing the journal or binding the allocations. -/
def Event.isBindStep : Event → Bool
  | .journalContentSet => true
  | .bindAllocs _ => true
  | _ => false

/-- The `-t` value as the spec words it: `300 + 60·ceil(size / 100MiB)` in exact
integer arithmetic, in decimal. -/
def helperTimeoutSpec (size : Nat) : String :=
  toString (300 + 60 * ((size + (100 * 1024 * 1024 - 1)) / (100 * 1024 * 1024)))

/-- The engine answers the state query for `id` with the error `ContainerDoesNotExist`
or, without error, with the state `dead`: the two answers on which the reaper removes
the id. -/
def EngineWorld.reaps (w : EngineWorld) (id : String) : Bool :=
  match (w.getProperty id "state").2 with
  | some (.porto errName _) => errName == "ContainerDoesNotExist"
  | some _ => false
  | none => (w.getProperty id "state").1 == "dead"

/-- The engine answers the state query for `id` without error or with
`ContainerDoesNotExist`: no error that makes the reaper drop its connection. -/
def EngineWorld.answers (w : EngineWorld) (id : String) : Bool :=
  match (w.getProperty id "state").2 with
  | some (.porto errName _) => errName == "ContainerDoesNotExist"
  | some _ => false
  | none => true

/-- The engine answers the state query for `id`, without error, with one of the states
`running`, `starting`, `meta`. -/
def EngineWorld.keeps (w : EngineWorld) (id : String) : Bool :=
  match (w.getProperty id "state").2 with
  | some _ => false
  | none =>
    (w.getProperty id "state").1 == "running" || (w.getProperty id "state").1 == "starting"
      || (w.getProperty id "state").1 == "meta"

/-! ## Concrete inputs -/

/-- A configuration with the download helper enabled. -/
def sampleConfig : portoBoxConfig :=
  { Layers := "/layers", Containers := "/containers", Journal := "/journal",
    SpawnConcurrency := 5, RegistryAuth := [], DialRetries := 10, CleanupEnabled := true,
    SetImgURI := false, WeakEnabled := false, Gc := true, WaitLoopStepSec := 10,
    DefaultUlimits := "", VolumeBackend := "overlay", DefaultResolvConf := "",
    CocaineAppVolumeLabel := "cocaine-app", DownloadHelperCmd := "helper" }

/-- A fresh box over `sampleConfig`. -/
def sampleBox : Box := NewBox sampleConfig ""

/-- A profile that declares one helper layer with digest `aa`. -/
def sampleProfile : Profile :=
  { Registry := "r", Repository := "p",
    ExtendedInfoLayers := [{ Digest := "aa", DigestType := "sha256", Size := 1, TorrentId := "t" }],
    Network := [] }

/-- Collaborators for which the helper downloads a file whose SHA-256 is `bb` and
the registry serves a v2 manifest with the layers `d1`, `d2`. -/
def mismatchWorld : SpoolWorld :=
  { portoConnect := fun _ => none
    exec := fun _ _ => none
    osOpen := fun _ => true
    sha256Hex := fun _ => some "bb"
    importLayer := fun _ _ => none
    parseNamed := fun s => .ok s
    newRepository := fun _ _ _ => none
    tagsGet := fun _ => .ok "tag"
    manifests := fun _ => none
    manifestsGet := fun _ => .ok (.schema2 ["d1", "d2"])
    blobGet := fun d => .ok ("/layers/" ++ d)
    mtnCfgEnable := false
    bindAllocs := fun _ => none }

/-- The collaborators of `mismatchWorld` with a registry that cannot be reached. -/
def brokenRegistryWorld : SpoolWorld :=
  { mismatchWorld with newRepository := fun _ _ _ => some (.other "connection refused") }

/-- An engine on which every call succeeds and both output streams read `out`. -/
def engineOk : EngineWorld :=
  { portoConnect := fun _ => none
    acquire := none
    createRootVolume := fun cfg => .ok ⟨cfg.Root ++ "/volume"⟩
    createExtraVolumes := fun _ _ => .ok []
    createContainer := fun _ _ _ => none
    start := fun _ => none
    getData := fun _ _ => ("out", none)
    kill := fun _ => none
    wait := fun _ => none
    getProperty := fun _ _ => ("running", none) }

/-- The engine of `engineOk`, except that starting a container fails. -/
def engineStartFails : EngineWorld :=
  { engineOk with start := fun _ => some (.porto "Unknown" "start failed") }

/-- The engine of `engineOk`, except that it cannot be connected to. -/
def engineDown : EngineWorld :=
  { engineOk with portoConnect := fun _ => some (.other "connection refused") }

/-- The `sampleBox` after the app `echo` was spooled with the layers `d1`, `d2`. -/
def spooledBox : Box :=
  { sampleBox with journal := sampleBox.journal.InsertManifestLayers "echo" "d1;d2" }

/-- A spawn request for the app `echo` with worker uuid `u`. -/
def sampleSpawn : SpawnConfig :=
  { Opts := ⟨.ok sampleProfile⟩, Name := "echo", Executable := "/bin/echo",
    Args := [("--uuid", "u")], Env := [] }

/-- The container that `newContainer` returns for `sampleSpawn` on `spooledBox`. -/
def sampleContainer : container :=
  { uuid := "u", containerID := "echo_u", rootDir := "/containers/echo_u",
    cleanupEnabled := true, SetImgURI := false,
    volume := ⟨"/containers/echo_u/volume"⟩, extraVolumes := [], output := "ioutil.Discard" }

/-- A process whose `Kill()` succeeds. -/
def sampleProcess : Process := ⟨"echo_u", none⟩

/-- The bytes of `"hi\n"`. -/
def hiBytes : List UInt8 := [104, 105, 10]

/-- A context in which `unpackArgs` yields a profile without `type` (printed as
`map[]`) and the app name `echo`, and no box is configured. -/
def noTypeWorld : DispatchWorld :=
  { unpackSpool := fun _ => .ok (⟨"", "map[]"⟩, "echo")
    unpackSpawn := fun _ => .ok (⟨"", "map[]"⟩, "echo", "/bin/echo", [], [])
    boxes := [] }

/-- An engine that no longer knows any container. -/
def engineGone : EngineWorld :=
  { engineOk with
    getData := fun _ _ => ("", some (.porto "ContainerDoesNotExist" "container not found"))
    kill := fun _ => some (.porto "ContainerDoesNotExist" "container not found")
    getProperty := fun _ _ => ("", some (.porto "ContainerDoesNotExist" "container not found")) }

/-- The box after `sampleSpawn` was spawned on `spooledBox`: `echo_u` is registered. -/
def spawnedBox : Box := (spooledBox.Spawn engineOk 0 sampleSpawn "out").box

/-- The `sampleProfile` asking for network allocations of the project `n1`. -/
def mtnProfile : Profile :=
  { sampleProfile with Network := [("mtn", "enable"), ("netid", "n1")] }

/-- Collaborators for which the helper delivers the declared layer (SHA-256 `aa`) and
the allocation service is switched off in the configuration of the daemon. -/
def mtnOffWorld : SpoolWorld :=
  { mismatchWorld with sha256Hex := fun _ => some "aa", mtnCfgEnable := false }

/-- The collaborators of `mtnOffWorld` with the allocation service switched on and
failing to bind. -/
def mtnFailsWorld : SpoolWorld :=
  { mtnOffWorld with mtnCfgEnable := true, bindAllocs := fun _ => some (.other "no allocs") }

/-- The `containerConfig` that `Box.Spawn` builds for `sampleSpawn` on `spooledBox`. -/
def sampleContainerConfig : containerConfig :=
  Box.Spawn.cfg spooledBox sampleSpawn sampleProfile "d1;d2"

/-- The engine of `engineOk`, except that creating the extra volumes fails. -/
def engineExtraVolumesFail : EngineWorld :=
  { engineOk with createExtraVolumes := fun _ _ => .error (.porto "Unknown" "no space") }

/-- The engine of `engineOk`, except that one extra volume is created and creating the
container then fails. -/
def engineCreateFails : EngineWorld :=
  { engineOk with
    createExtraVolumes := fun cfg _ => .ok [⟨cfg.Root ++ "/extra0"⟩]
    createContainer := fun _ _ _ => some (.porto "Unknown" "create failed") }

/-- Three used allocations: two of this box, the first with the IP of a live
container, and one of another box. -/
def sampleAllocations : List Allocation :=
  [⟨"10.0.0.1", "porto", "n1", "a1"⟩, ⟨"10.0.0.2", "porto", "n1", "a2"⟩,
    ⟨"10.0.0.3", "docker", "n2", "a3"⟩]

/-- The start of a daemon whose engine runs one container with the IP `10.0.0.1`, with
`sampleAllocations` marked as used. -/
def gcWorld : GcWorld :=
  { portoConnect := none
    list := (["echo_u"], none)
    usedAllocations := (sampleAllocations, "stat", none)
    getProperty := fun _ property =>
      if property = "state" then ("running", none) else ("10.0.0.1", none)
    listVolumes := ([⟨"/v1", [("Private", "cocaine-app")]⟩, ⟨"/v2", []⟩], none) }

/-- The start of `gcWorld`, except that the allocation service fails. -/
def gcFailsWorld : GcWorld :=
  { gcWorld with usedAllocations := ([], "down", some (.other "db is down")) }

/-- A context in which `unpackArgs` fails, for either request shape, with an error
whose text happens to read like the dispatcher's own "unknown transition id" error. -/
def passThroughWorld : DispatchWorld :=
  { unpackSpool := fun _ => .error (.other "unknown transition id: 0")
    unpackSpawn := fun _ => .error (.other "unknown transition id: 1")
    boxes := [] }

/-! # Theorems -/

/-! ## Spool: the two image sources -/

theorem helper_loop_mismatch (w : SpoolWorld) (config : portoBoxConfig) (ls : List Layer) :
    ∀ (acc : List String) (tr : List Event),
      (∃ layer ∈ ls, w.sha256Hex (filepathJoin [config.Layers, layer.Digest]) ≠ some layer.Digest) →
      (getLayersViaDownloadHelper.loop w config ls acc tr).1 ≠ none := by
  induction ls with
  | nil => intro acc tr h; simp at h
  | cons layer rest ih =>
    intro acc tr h
    by_cases hd : w.sha256Hex (filepathJoin [config.Layers, layer.Digest]) = some layer.Digest
    · have hrest : ∃ l ∈ rest,
          w.sha256Hex (filepathJoin [config.Layers, l.Digest]) ≠ some l.Digest := by
        obtain ⟨l, hl, hne⟩ := h
        rcases List.mem_cons.mp hl with rfl | hl
        · exact absurd hd hne
        · exact ⟨l, hl, hne⟩
      simp only [getLayersViaDownloadHelper.loop]
      split
      · simp
      · split
        · simp
        · rw [hd]
          simp only [ne_eq, not_true_eq_false, if_false]
          split
          · split
            · simp
            · exact ih _ _ hrest
          · exact ih _ _ hrest
    · simp only [getLayersViaDownloadHelper.loop]
      split
      · simp
      · split
        · simp
        · split
          · simp
          · rename_i digest hsome
            have : digest ≠ layer.Digest := by
              intro heq; apply hd; rw [hsome, heq]
            simp [this]

theorem helper_err_journal (w : SpoolWorld) (b : Box) (name : String) (profile : Profile)
    (h : (b.getLayersViaDownloadHelper w name profile).err ≠ none) :
    (b.getLayersViaDownloadHelper w name profile).journal = b.journal := by
  unfold Box.getLayersViaDownloadHelper at h ⊢
  simp only at h ⊢
  split
  · rfl
  · split
    · rfl
    · simp_all

theorem helper_mismatch_err (w : SpoolWorld) (b : Box) (name : String) (profile : Profile)
    (hmis : ∃ layer ∈ profile.ExtendedInfoLayers,
      w.sha256Hex (filepathJoin [b.config.Layers, layer.Digest]) ≠ some layer.Digest) :
    (b.getLayersViaDownloadHelper w name profile).err ≠ none := by
  unfold Box.getLayersViaDownloadHelper
  simp only
  split
  · simp
  · have := helper_loop_mismatch w b.config profile.ExtendedInfoLayers []
      [Event.enterHelper name, Event.portoConnect] hmis
    split
    · simp
    · rename_i heq
      rw [heq] at this
      exact absurd rfl this

theorem importAll_err_journal (w : SpoolWorld) (b : Box) (name : String)
    (ordered : List String) (tr : List Event)
    (h : (getLayersViaRegistry.importAll w b name ordered tr).err ≠ none) :
    (getLayersViaRegistry.importAll w b name ordered tr).journal = b.journal := by
  unfold getLayersViaRegistry.importAll at h ⊢
  simp only at h ⊢
  split
  · rfl
  · split
    · rfl
    · simp_all

theorem registry_err_journal (w : SpoolWorld) (b : Box) (name : String) (profile : Profile)
    (h : (b.getLayersViaRegistry w name profile).err ≠ none) :
    (b.getLayersViaRegistry w name profile).journal = b.journal := by
  unfold Box.getLayersViaRegistry at h ⊢
  simp only at h ⊢
  repeat' split
  all_goals first
    | rfl
    | (apply importAll_err_journal; simp_all)

theorem mem_iff_mem_entries (e : Event) (he : e.isSourceEntry = true) (tr : List Event) :
    e ∈ tr ↔ e ∈ tr.filter Event.isSourceEntry := by
  simp [List.mem_filter, he]

theorem helper_loop_entries (w : SpoolWorld) (config : portoBoxConfig) (ls : List Layer) :
    ∀ (acc : List String) (tr : List Event),
      (getLayersViaDownloadHelper.loop w config ls acc tr).2.2.filter Event.isSourceEntry
        = tr.filter Event.isSourceEntry := by
  induction ls with
  | nil => intro acc tr; rfl
  | cons layer rest ih =>
    intro acc tr
    simp only [getLayersViaDownloadHelper.loop]
    repeat' split
    all_goals simp [ih, Event.isSourceEntry]

theorem registry_loop_entries (w : SpoolWorld) (ls : List String) :
    ∀ (acc : List String) (tr : List Event),
      (getLayersViaRegistry.loop w ls acc tr).2.2.filter Event.isSourceEntry
        = tr.filter Event.isSourceEntry := by
  induction ls with
  | nil => intro acc tr; rfl
  | cons layer rest ih =>
    intro acc tr
    simp only [getLayersViaRegistry.loop]
    repeat' split
    all_goals simp [ih, Event.isSourceEntry]

theorem helper_entries (w : SpoolWorld) (b : Box) (name : String) (profile : Profile) :
    (b.getLayersViaDownloadHelper w name profile).trace.filter Event.isSourceEntry
      = [Event.enterHelper name] := by
  have key := helper_loop_entries w b.config profile.ExtendedInfoLayers []
    [Event.enterHelper name, Event.portoConnect]
  unfold Box.getLayersViaDownloadHelper
  simp only
  split
  · simp [Event.isSourceEntry]
  · split
    · rename_i heq
      rw [heq] at key
      simp only at key
      simp [key, Event.isSourceEntry]
    · rename_i heq
      rw [heq] at key
      simp only at key
      simp [key, Event.isSourceEntry]

theorem importAll_entries (w : SpoolWorld) (b : Box) (name : String)
    (ordered : List String) (tr : List Event) :
    (getLayersViaRegistry.importAll w b name ordered tr).trace.filter Event.isSourceEntry
      = tr.filter Event.isSourceEntry := by
  have key := registry_loop_entries w ordered [] (tr ++ [Event.portoConnect])
  unfold getLayersViaRegistry.importAll
  simp only
  split
  · simp [Event.isSourceEntry]
  · split
    · rename_i heq
      rw [heq] at key
      simp only at key
      simp [key, Event.isSourceEntry]
    · rename_i heq
      rw [heq] at key
      simp only at key
      simp [key, Event.isSourceEntry]

theorem registry_entries (w : SpoolWorld) (b : Box) (name : String) (profile : Profile) :
    (b.getLayersViaRegistry w name profile).trace.filter Event.isSourceEntry
      = [Event.enterRegistry name] := by
  unfold Box.getLayersViaRegistry
  simp only
  repeat' split
  all_goals simp [importAll_entries, Event.isSourceEntry]

theorem bind_entries (w : SpoolWorld) (b : Box) (profile : Profile) (tr : List Event) :
    (Box.Spool.bind w b profile tr).trace.filter Event.isSourceEntry
      = tr.filter Event.isSourceEntry := by
  unfold Box.Spool.bind
  simp only
  repeat' split
  all_goals simp [Event.isSourceEntry]

theorem finish_entries (w : SpoolWorld) (b : Box) (name : String) (profile : Profile)
    (imported : Bool) (errGet : Option GoError) (tr : List Event) :
    (Box.Spool.finish w b name profile imported errGet tr).trace.filter Event.isSourceEntry
      = tr.filter Event.isSourceEntry
          ++ (if imported = false then [Event.enterRegistry name] else []) := by
  unfold Box.Spool.finish
  cases imported
  · simp only [if_true]
    split <;> simp [bind_entries, registry_entries]
  · simp only [Bool.true_eq_false, if_false]
    split <;> simp [bind_entries]

theorem finish_registry_err (w : SpoolWorld) (b : Box) (name : String) (profile : Profile)
    (errGet : Option GoError) (tr : List Event) (e : GoError)
    (h : (b.getLayersViaRegistry w name profile).err = some e) :
    (Box.Spool.finish w b name profile false errGet tr).err = some e
      ∧ (Box.Spool.finish w b name profile false errGet tr).box.journal = b.journal := by
  have hj := registry_err_journal w b name profile (by rw [h]; simp)
  unfold Box.Spool.finish
  simp only [if_true]
  split
  · rename_i heq
    rw [h] at heq
    simp_all
  · rename_i heq
    rw [h] at heq
    simp at heq

theorem box_with_journal (b : Box) : { b with journal := b.journal } = b := rfl

theorem finish_registry_ok (w : SpoolWorld) (b : Box) (name : String) (profile : Profile)
    (errGet : Option GoError) (tr : List Event)
    (h : (b.getLayersViaRegistry w name profile).err = none) :
    (Box.Spool.finish w b name profile false errGet tr).box.journal
      = (b.getLayersViaRegistry w name profile).journal := by
  unfold Box.Spool.finish
  simp only [if_true]
  split
  · simp_all
  · unfold Box.Spool.bind
    simp only
    split
    · split <;> rfl
    · rfl

theorem Spool_helper_failed (w : SpoolWorld) (b : Box) (name : String) (opts : RawProfile)
    (profile : Profile) (hdec : opts.DecodeTo = .ok profile)
    (hlay : profile.ExtendedInfoLayers ≠ []) (hdh : b.dhEnable = true)
    (herr : (b.getLayersViaDownloadHelper w name profile).err ≠ none) :
    b.Spool w name opts = Box.Spool.finish w b name profile false
      (b.getLayersViaDownloadHelper w name profile).err
      (b.getLayersViaDownloadHelper w name profile).trace := by
  have hj := helper_err_journal w b name profile herr
  have hlen : profile.ExtendedInfoLayers.length > 0 := List.length_pos.mpr hlay
  unfold Box.Spool
  rw [hdec]
  simp only
  rw [if_pos ⟨hlen, hdh⟩]
  split
  · rename_i err heq
    rw [hj, box_with_journal, heq]
  · rename_i heq
    exact absurd heq herr

/-- C1 (counterexample): on the helper path, with a declared layer whose downloaded
file has a SHA-256 different from `layer.Digest`, `Box.Spool` can still return no
error and write the journal entry of the app: the registry source is tried after
the helper failed, and here it succeeds. -/
theorem Spool_digest_mismatch_counterexample :
    sampleProfile.ExtendedInfoLayers ≠ [] ∧ sampleBox.dhEnable = true ∧
    (∃ layer ∈ sampleProfile.ExtendedInfoLayers,
      mismatchWorld.sha256Hex (filepathJoin [sampleBox.config.Layers, layer.Digest])
        ≠ some layer.Digest) ∧
    (sampleBox.Spool mismatchWorld "echo" ⟨.ok sampleProfile⟩).err = none ∧
    sampleBox.journal.GetManifestLayers "echo" = "" ∧
    (sampleBox.Spool mismatchWorld "echo" ⟨.ok sampleProfile⟩).box.journal.GetManifestLayers
      "echo" = "d1;d2" := by
  refine ⟨by decide, by decide, ⟨_, List.mem_singleton.mpr rfl, by decide⟩, by decide,
    by decide, by decide⟩

/-- C1 (amended): on the helper path, when some declared layer's downloaded file has
a SHA-256 different from `layer.Digest`, the helper source returns an error and leaves
the journal as it was, and `Box.Spool` goes on to the registry source. If the
registry source fails, `Spool` returns that error and the journal is unchanged; if it
succeeds, the journal is the one written by the registry source. -/
theorem Spool_digest_mismatch_falls_back (w : SpoolWorld) (b : Box) (name : String)
    (opts : RawProfile) (profile : Profile)
    (hdec : opts.DecodeTo = .ok profile)
    (hlay : profile.ExtendedInfoLayers ≠ [])
    (hdh : b.dhEnable = true)
    (hmis : ∃ layer ∈ profile.ExtendedInfoLayers,
      w.sha256Hex (filepathJoin [b.config.Layers, layer.Digest]) ≠ some layer.Digest) :
    (b.getLayersViaDownloadHelper w name profile).err ≠ none ∧
    (b.getLayersViaDownloadHelper w name profile).journal = b.journal ∧
    Event.enterRegistry name ∈ (b.Spool w name opts).trace ∧
    (∀ e, (b.getLayersViaRegistry w name profile).err = some e →
      (b.Spool w name opts).err = some e ∧ (b.Spool w name opts).box.journal = b.journal) ∧
    ((b.getLayersViaRegistry w name profile).err = none →
      (b.Spool w name opts).box.journal = (b.getLayersViaRegistry w name profile).journal) := by
  have herr := helper_mismatch_err w b name profile hmis
  have hS := Spool_helper_failed w b name opts profile hdec hlay hdh herr
  refine ⟨herr, helper_err_journal w b name profile herr, ?_, ?_, ?_⟩
  · rw [mem_iff_mem_entries (Event.enterRegistry name) rfl, hS, finish_entries]
    simp
  · intro e he
    rw [hS]
    exact finish_registry_err w b name profile _ _ e he
  · intro hok
    rw [hS]
    exact finish_registry_ok w b name profile _ _ hok

/-- Witness for `Spool_digest_mismatch_falls_back`: the helper downloads a file with
the wrong SHA-256 and the registry cannot be reached. -/
theorem Spool_digest_mismatch_falls_back_witness :
    (sampleBox.getLayersViaDownloadHelper brokenRegistryWorld "echo" sampleProfile).err ≠ none ∧
    (sampleBox.getLayersViaDownloadHelper brokenRegistryWorld "echo" sampleProfile).journal
      = sampleBox.journal ∧
    Event.enterRegistry "echo"
      ∈ (sampleBox.Spool brokenRegistryWorld "echo" ⟨.ok sampleProfile⟩).trace ∧
    (∀ e, (sampleBox.getLayersViaRegistry brokenRegistryWorld "echo" sampleProfile).err = some e →
      (sampleBox.Spool brokenRegistryWorld "echo" ⟨.ok sampleProfile⟩).err = some e ∧
      (sampleBox.Spool brokenRegistryWorld "echo" ⟨.ok sampleProfile⟩).box.journal
        = sampleBox.journal) ∧
    ((sampleBox.getLayersViaRegistry brokenRegistryWorld "echo" sampleProfile).err = none →
      (sampleBox.Spool brokenRegistryWorld "echo" ⟨.ok sampleProfile⟩).box.journal
        = (sampleBox.getLayersViaRegistry brokenRegistryWorld "echo" sampleProfile).journal) :=
  Spool_digest_mismatch_falls_back brokenRegistryWorld sampleBox "echo" ⟨.ok sampleProfile⟩
    sampleProfile rfl (by decide) (by decide) ⟨_, List.mem_singleton.mpr rfl, by decide⟩

/-- C5: for a `Box.Spool` call whose profile decodes, on a box whose `dhEnable` is the
value `NewBox` computes from `download_helper_cmd`: the helper source is entered iff
the profile declares layers and `download_helper_cmd` is non-empty; the registry
source is entered iff the helper source was not entered or returned an error; and
whenever the registry source is entered and returns an error, `Spool` returns that
error. -/
theorem Spool_source_selection (w : SpoolWorld) (b : Box) (name : String)
    (opts : RawProfile) (profile : Profile)
    (hdec : opts.DecodeTo = .ok profile)
    (hdh : b.dhEnable = NewBox.dhEnable b.config) :
    (Event.enterHelper name ∈ (b.Spool w name opts).trace ↔
      (profile.ExtendedInfoLayers ≠ [] ∧ b.config.DownloadHelperCmd ≠ "")) ∧
    (Event.enterRegistry name ∈ (b.Spool w name opts).trace ↔
      (Event.enterHelper name ∉ (b.Spool w name opts).trace ∨
        (b.getLayersViaDownloadHelper w name profile).err ≠ none)) ∧
    (∀ e, Event.enterRegistry name ∈ (b.Spool w name opts).trace →
      (b.getLayersViaRegistry w name profile).err = some e →
      (b.Spool w name opts).err = some e) := by
  have hcmd : b.dhEnable = true ↔ b.config.DownloadHelperCmd ≠ "" := by
    rw [hdh]; simp [NewBox.dhEnable]
  rw [mem_iff_mem_entries (Event.enterHelper name) rfl,
    mem_iff_mem_entries (Event.enterRegistry name) rfl]
  by_cases hc : profile.ExtendedInfoLayers ≠ [] ∧ b.dhEnable = true
  · obtain ⟨hlay, hen⟩ := hc
    have hlen : profile.ExtendedInfoLayers.length > 0 := List.length_pos.mpr hlay
    by_cases herr : (b.getLayersViaDownloadHelper w name profile).err = none
    · have hS : b.Spool w name opts = Box.Spool.finish w
          { b with journal := (b.getLayersViaDownloadHelper w name profile).journal }
          name profile true none (b.getLayersViaDownloadHelper w name profile).trace := by
        unfold Box.Spool
        rw [hdec]
        simp only
        rw [if_pos ⟨hlen, hen⟩]
        split
        · rename_i heq
          rw [herr] at heq
          simp at heq
        · rfl
      rw [hS, finish_entries, helper_entries]
      simp [hlay, hcmd.mp hen, herr]
    · have hS := Spool_helper_failed w b name opts profile hdec hlay hen herr
      rw [hS, finish_entries, helper_entries]
      refine ⟨by simp [hlay, hcmd.mp hen], by simp [herr], ?_⟩
      intro e _ he
      exact (finish_registry_err w b name profile _ _ e he).1
  · have hS : b.Spool w name opts = Box.Spool.finish w b name profile false none [] := by
      unfold Box.Spool
      rw [hdec]
      have : ¬ (profile.ExtendedInfoLayers.length > 0 ∧ b.dhEnable = true) := by
        intro h
        exact hc ⟨List.length_pos.mp h.1, h.2⟩
      simp only
      rw [if_neg this]
    have hc2 : ¬ (profile.ExtendedInfoLayers ≠ [] ∧ b.config.DownloadHelperCmd ≠ "") := by
      intro h
      exact hc ⟨h.1, hcmd.mpr h.2⟩
    rw [hS, finish_entries]
    refine ⟨by simpa using hc2, by simp, ?_⟩
    intro e _ he
    exact (finish_registry_err w b name profile _ _ e he).1

/-- Witness for `Spool_source_selection`: the helper fails on a digest mismatch and
the registry cannot be reached. -/
theorem Spool_source_selection_witness :
    (Event.enterHelper "echo"
        ∈ (sampleBox.Spool brokenRegistryWorld "echo" ⟨.ok sampleProfile⟩).trace ↔
      (sampleProfile.ExtendedInfoLayers ≠ [] ∧ sampleBox.config.DownloadHelperCmd ≠ "")) ∧
    (Event.enterRegistry "echo"
        ∈ (sampleBox.Spool brokenRegistryWorld "echo" ⟨.ok sampleProfile⟩).trace ↔
      (Event.enterHelper "echo"
          ∉ (sampleBox.Spool brokenRegistryWorld "echo" ⟨.ok sampleProfile⟩).trace ∨
        (sampleBox.getLayersViaDownloadHelper brokenRegistryWorld "echo" sampleProfile).err
          ≠ none)) ∧
    (∀ e, Event.enterRegistry "echo"
        ∈ (sampleBox.Spool brokenRegistryWorld "echo" ⟨.ok sampleProfile⟩).trace →
      (sampleBox.getLayersViaRegistry brokenRegistryWorld "echo" sampleProfile).err = some e →
      (sampleBox.Spool brokenRegistryWorld "echo" ⟨.ok sampleProfile⟩).err = some e) :=
  Spool_source_selection brokenRegistryWorld sampleBox "echo" ⟨.ok sampleProfile⟩
    sampleProfile rfl rfl

/-! ## Spawn: admission, the queue gauge, start failure -/

theorem critical_gauge (w : EngineWorld) (b : Box) (cfg : containerConfig) (output : String)
    (q : Int) (tr : List Event) :
    (Box.Spawn.critical w b cfg output q tr).spawningQueueSize = q := by
  unfold Box.Spawn.critical
  split
  · rfl
  · simp only
    split <;> rfl

/-- The gauge after any `Box.Spawn` call whose profile decodes: it is back at its
value before the call when the call is rejected at admission or reaches the
semaphore, and one higher when the call returns because the journal has no layers
for the app or because the engine connection fails. -/
theorem Spawn_gauge_net_change (w : EngineWorld) (b : Box) (q : Int) (config : SpawnConfig)
    (output : String) (profile : Profile) (hdec : config.Opts.DecodeTo = .ok profile) :
    (b.Spawn w q config output).spawningQueueSize =
      if q + 1 > 10 then q
      else if b.journal.GetManifestLayers config.Name = "" then q + 1
      else if (w.portoConnect "Spawn").isSome then q + 1
      else q := by
  unfold Box.Spawn
  rw [hdec]
  simp only
  split
  · simp
  · split
    · rfl
    · split
      · rename_i heq
        simp [heq]
      · rename_i heq
        simp only [heq, Option.isSome_none, Bool.false_eq_true, if_false]
        split
        · simp
        · rw [critical_gauge]
          simp

/-- C2 (the code at the failing inputs): a `Box.Spawn` call for an app without layers
in the journal, and a call made while the engine cannot be connected to, both pass
the admission check, increment the gauge once, never decrement it, and return with
the gauge one higher than before the call. -/
theorem Spawn_gauge_leak :
    (sampleBox.Spawn engineOk 0 sampleSpawn "out").err
      = some (.errorf "no layers in the journal for the app") ∧
    (sampleBox.Spawn engineOk 0 sampleSpawn "out").trace.count Event.gaugeInc = 1 ∧
    (sampleBox.Spawn engineOk 0 sampleSpawn "out").trace.count Event.gaugeDec = 0 ∧
    (sampleBox.Spawn engineOk 0 sampleSpawn "out").spawningQueueSize = 1 ∧
    (spooledBox.Spawn engineDown 0 sampleSpawn "out").err = some (.other "connection refused") ∧
    (spooledBox.Spawn engineDown 0 sampleSpawn "out").trace.count Event.gaugeInc = 1 ∧
    (spooledBox.Spawn engineDown 0 sampleSpawn "out").trace.count Event.gaugeDec = 0 ∧
    (spooledBox.Spawn engineDown 0 sampleSpawn "out").spawningQueueSize = 1 := by
  refine ⟨by decide, by decide, by decide, by decide, by decide, by decide, by decide,
    by decide⟩

/-- C6: for a `Box.Spawn` call whose profile decodes, with `q` other spawns pending
when it begins. If `q + 1 > 10`, the call returns `syscall.EAGAIN` and no process,
leaves the box as it was, and its only calls are the increment and the decrement of
the gauge: no engine connection, no volume or container creation, no semaphore
acquisition. If `q + 1 ≤ 10`, the call passes the admission check: it goes on to the
journal lookup. -/
theorem Spawn_admission (w : EngineWorld) (b : Box) (q : Int) (config : SpawnConfig)
    (output : String) (profile : Profile) (hdec : config.Opts.DecodeTo = .ok profile) :
    (q + 1 > 10 →
      b.Spawn w q config output
        = ⟨none, some .eagain, b, q, [Event.gaugeInc, Event.gaugeDec]⟩) ∧
    (q + 1 ≤ 10 →
      [Event.gaugeInc, Event.journalGet config.Name] <+: (b.Spawn w q config output).trace) := by
  constructor
  · intro hq
    unfold Box.Spawn
    rw [hdec]
    simp [hq]
  · intro hq
    have hq2 : ¬ (q + 1 > 10) := not_lt.mpr hq
    unfold Box.Spawn
    rw [hdec]
    simp only [hq2, if_false]
    split
    · exact List.prefix_refl _
    · split
      · exact ⟨_, rfl⟩
      · split
        · simp only [List.append_assoc]
          exact ⟨_, rfl⟩
        · unfold Box.Spawn.critical
          split
          · simp only [List.append_assoc]
            exact ⟨_, rfl⟩
          · simp only
            split
            · simp only [List.append_assoc]
              exact ⟨_, rfl⟩
            · simp only [List.append_assoc]
              exact ⟨_, rfl⟩

/-- Witness for `Spawn_admission`: a spawn of a spooled app with ten spawns pending. -/
theorem Spawn_admission_witness :
    ((10 : Int) + 1 > 10 →
      spooledBox.Spawn engineOk 10 sampleSpawn "out"
        = ⟨none, some .eagain, spooledBox, 10, [Event.gaugeInc, Event.gaugeDec]⟩) ∧
    ((10 : Int) + 1 ≤ 10 →
      [Event.gaugeInc, Event.journalGet sampleSpawn.Name]
        <+: (spooledBox.Spawn engineOk 10 sampleSpawn "out").trace) :=
  Spawn_admission engineOk spooledBox 10 sampleSpawn "out" sampleProfile rfl

/-- C3 (counterexample): a `Box.Spawn` call whose container is created and registered
and whose start fails returns the start error after running `Cleanup`, and the
engine id of the container is still a key of the containers map. -/
theorem Spawn_start_failure_counterexample :
    (spooledBox.Spawn engineStartFails 0 sampleSpawn "out").err
      = some (.porto "Unknown" "start failed") ∧
    Event.enterCleanup "echo_u" ∈ (spooledBox.Spawn engineStartFails 0 sampleSpawn "out").trace ∧
    ((spooledBox.Spawn engineStartFails 0 sampleSpawn "out").box.containers.lookup
      "echo_u").isSome = true := by
  refine ⟨by decide, by decide, by decide⟩

/-- C3 (amended): for every `Box.Spawn` call in which the container `pr` was created
and registered and starting it fails with `err`: `Cleanup` is run on the container,
`Spawn` returns `err` and no process, and the engine id of the container is still a
key of the containers map, bound to the container. -/
theorem Spawn_start_failure (w : EngineWorld) (b : Box) (q : Int) (config : SpawnConfig)
    (output : String) (profile : Profile) (pr : container) (tr1 : List Event) (err : GoError)
    (hdec : config.Opts.DecodeTo = .ok profile)
    (hq : q + 1 ≤ 10)
    (hlay : b.journal.GetManifestLayers config.Name ≠ "")
    (hconn : w.portoConnect "Spawn" = none)
    (hacq : w.acquire = none)
    (hnew : newContainer w
      (Box.Spawn.cfg b config profile (b.journal.GetManifestLayers config.Name)) = (.ok pr, tr1))
    (hstart : w.start pr.containerID = some err) :
    (b.Spawn w q config output).err = some err ∧
    (b.Spawn w q config output).pr = none ∧
    container.Cleanup { pr with output := output } <:+: (b.Spawn w q config output).trace ∧
    (b.Spawn w q config output).box.containers.lookup pr.containerID
      = some { pr with output := output } := by
  have hq2 : ¬ (q + 1 > 10) := not_lt.mpr hq
  have hS : b.Spawn w q config output =
      ⟨none, some err,
        { b with containers :=
            containersSet b.containers pr.containerID { pr with output := output } }, q + 1 - 1,
        [Event.gaugeInc] ++ [Event.journalGet config.Name] ++ [Event.portoConnect]
          ++ [Event.semAcquire, Event.gaugeDec] ++ tr1 ++ [Event.start pr.containerID]
          ++ container.Cleanup { pr with output := output }
          ++ [Event.semRelease, Event.portoClose]⟩ := by
    unfold Box.Spawn
    rw [hdec]
    simp only [hq2, if_false, hlay, hconn, hacq]
    unfold Box.Spawn.critical
    rw [hnew]
    simp only [container.start, hstart]
  rw [hS]
  refine ⟨rfl, rfl, ?_, ?_⟩
  · exact ⟨_, _, rfl⟩
  · simp [containersSet, List.lookup]

/-- Witness for `Spawn_start_failure`: a spooled app on an engine whose start fails. -/
theorem Spawn_start_failure_witness :
    (spooledBox.Spawn engineStartFails 0 sampleSpawn "out").err
      = some (.porto "Unknown" "start failed") ∧
    (spooledBox.Spawn engineStartFails 0 sampleSpawn "out").pr = none ∧
    container.Cleanup { sampleContainer with output := "out" }
      <:+: (spooledBox.Spawn engineStartFails 0 sampleSpawn "out").trace ∧
    (spooledBox.Spawn engineStartFails 0 sampleSpawn "out").box.containers.lookup "echo_u"
      = some { sampleContainer with output := "out" } :=
  Spawn_start_failure engineStartFails spooledBox 0 sampleSpawn "out" sampleProfile
    sampleContainer
    [Event.createRootVolume "echo_u", Event.createExtraVolumes "echo_u",
      Event.createContainer "echo_u"]
    (.porto "Unknown" "start failed") rfl (by decide) (by decide) rfl rfl rfl rfl

/-! ## The kill goroutines: at most one `Kill()` -/

theorem sum_map_set (f : KillTask → Nat) :
    ∀ (l : List KillTask) (i : Nat) (t x : KillTask), l.get? i = some t →
      ((l.set i x).map f).sum + f t = (l.map f).sum + f x
  | [], i, t, x, h => by simp at h
  | a :: l, 0, t, x, h => by
    simp only [List.get?_cons_zero, Option.some.injEq] at h
    subst h
    simp only [List.set_cons_zero, List.map_cons, List.sum_cons]
    omega
  | a :: l, i + 1, t, x, h => by
    simp only [List.get?_cons_succ] at h
    have := sum_map_set f l i t x h
    simp only [List.set_cons_succ, List.map_cons, List.sum_cons]
    omega

theorem runTask_inv (s : SpawnSession) (i : Nat) (h : s.inv) : (s.runTask i).inv := by
  obtain ⟨h1, h2, h3⟩ := h
  unfold SpawnSession.runTask
  split
  · exact ⟨h1, h2, h3⟩
  · rename_i hget
    split
    · rename_i pr rest hp
      have a := sum_map_set KillTask.holdsSwap s.tasks i _ (.received pr) hget
      have b := sum_map_set KillTask.holdsResult s.tasks i _ (.received pr) hget
      simp only [KillTask.holdsSwap, KillTask.holdsResult] at a b
      refine ⟨?_, ?_, ?_⟩ <;> simp only [] <;> omega
    · split
      · have a := sum_map_set KillTask.holdsSwap s.tasks i _ .finished hget
        have b := sum_map_set KillTask.holdsResult s.tasks i _ .finished hget
        simp only [KillTask.holdsSwap, KillTask.holdsResult] at a b
        refine ⟨?_, ?_, ?_⟩ <;> simp only [] <;> omega
      · exact ⟨h1, h2, h3⟩
  · rename_i pr hget
    split
    · rename_i hk
      have h0 := h3 hk
      have a := sum_map_set KillTask.holdsSwap s.tasks i _ (.swapped pr) hget
      have b := sum_map_set KillTask.holdsResult s.tasks i _ (.swapped pr) hget
      simp only [KillTask.holdsSwap, KillTask.holdsResult] at a b
      refine ⟨?_, ?_, ?_⟩ <;> simp only [] <;> omega
    · have a := sum_map_set KillTask.holdsSwap s.tasks i _ .finished hget
      have b := sum_map_set KillTask.holdsResult s.tasks i _ .finished hget
      simp only [KillTask.holdsSwap, KillTask.holdsResult] at a b
      refine ⟨?_, ?_, ?_⟩ <;> simp only [] <;> omega
  · rename_i pr hget
    have a := sum_map_set KillTask.holdsSwap s.tasks i _ (.killed pr.Kill) hget
    have b := sum_map_set KillTask.holdsResult s.tasks i _ (.killed pr.Kill) hget
    simp only [KillTask.holdsSwap, KillTask.holdsResult] at a b
    refine ⟨?_, ?_, ?_⟩ <;> simp only [List.length_append, List.length_singleton] <;> omega
  · rename_i err hget
    have a := sum_map_set KillTask.holdsSwap s.tasks i _ .finished hget
    have b := sum_map_set KillTask.holdsResult s.tasks i _ .finished hget
    simp only [KillTask.holdsSwap, KillTask.holdsResult] at a b
    refine ⟨?_, ?_, ?_⟩ <;> simp only [List.length_append, List.length_singleton] <;> omega
  · rename_i hget
    have a := sum_map_set KillTask.holdsSwap s.tasks i _ .finished hget
    have b := sum_map_set KillTask.holdsResult s.tasks i _ .finished hget
    simp only [KillTask.holdsSwap, KillTask.holdsResult] at a b
    refine ⟨?_, ?_, ?_⟩ <;> simp only [List.length_append, List.length_singleton] <;> omega
  · exact ⟨h1, h2, h3⟩

theorem step_inv (s : SpawnSession) (st : SessionStep) (h : s.inv) : (s.step st).inv := by
  cases st with
  | handle msg =>
    simp only [SpawnSession.step]
    split
    · split
      · obtain ⟨h1, h2, h3⟩ := h
        refine ⟨?_, ?_, ?_⟩ <;>
          simp only [List.map_append, List.sum_append, List.map_cons, List.map_nil,
            List.sum_cons, List.sum_nil, KillTask.holdsSwap, KillTask.holdsResult] <;> omega
      · exact h
    · exact h
  | task i => exact runTask_inv s i h
  | taskCtxDone i =>
    simp only [SpawnSession.step]
    split
    · rename_i hget
      split
      · obtain ⟨h1, h2, h3⟩ := h
        have a := sum_map_set KillTask.holdsSwap s.tasks i _ .finished hget
        have b := sum_map_set KillTask.holdsResult s.tasks i _ .finished hget
        simp only [KillTask.holdsSwap, KillTask.holdsResult] at a b
        refine ⟨?_, ?_, ?_⟩ <;> simp only [] <;> omega
      · exact h
    · exact h
  | cancel => exact h
  | send pr =>
    simp only [SpawnSession.step]
    split <;> exact h
  | close => exact h
  | otherSwap =>
    simp only [SpawnSession.step]
    split
    · rename_i hk
      obtain ⟨h1, h2, h3⟩ := h
      have := h3 hk
      exact ⟨h1, h2, fun hk2 => by simp at hk2⟩
    · exact h

theorem run_inv (steps : List SessionStep) :
    ∀ (s : SpawnSession), s.inv → (s.run steps).inv := by
  induction steps with
  | nil => intro s h; exact h
  | cons st rest ih =>
    intro s h
    exact ih (s.step st) (step_inv s st h)

/-- C7: in a session that `newSpawnDispatch` starts, with any channel content and any
initial value of the flag, after any sequence of steps (messages handled, goroutine
steps in any interleaving, sends, close, cancellation, compare-and-swaps by other
holders of the flag) `Kill()` was called at most once and at most one reply
(`KILL_OK` or `KILL_ERROR`) was made. -/
theorem spawnDispatch_kill_at_most_once (prCh : List Process) (prChClosed : Bool)
    (flagKilled : Nat) (steps : List SessionStep) :
    ((newSpawnDispatch prCh prChClosed flagKilled).run steps).kills.length ≤ 1 ∧
    ((newSpawnDispatch prCh prChClosed flagKilled).run steps).replies.length ≤ 1 := by
  have h0 : (newSpawnDispatch prCh prChClosed flagKilled).inv := by
    refine ⟨?_, ?_, ?_⟩ <;> simp [newSpawnDispatch]
  obtain ⟨h1, h2, _⟩ := run_inv steps _ h0
  constructor <;> omega

/-- A session in which a process is delivered and one `spawnKill` is handled does
reach `Kill()` and the `KILL_OK` reply. -/
theorem spawnDispatch_kill_happens :
    ((newSpawnDispatch [sampleProcess] false 0).run
      [.handle ⟨spawnKill, []⟩, .task 0, .task 0, .task 0, .task 0]).kills = [sampleProcess] ∧
    ((newSpawnDispatch [sampleProcess] false 0).run
      [.handle ⟨spawnKill, []⟩, .task 0, .task 0, .task 0, .task 0]).replies
      = [⟨replyKillOk, [.nil]⟩] := by
  constructor <;> decide

/-! ## The output goroutine -/

theorem forward_code (output : ProcessOutput) :
    (OutputTask.forward output).code ≠ replySpawnClose := by
  unfold OutputTask.forward
  split <;> simp [replySpawnError, replySpawnWrite, replySpawnClose]

theorem output_step_no_close (t : OutputTask) (st : OutputStep)
    (h : t.replies.countP (fun r => r.code = replySpawnClose) = 0) :
    (t.step st).replies.countP (fun r => r.code = replySpawnClose) = 0 := by
  cases st with
  | receive =>
    simp only [OutputTask.step]
    split
    · exact h
    · split
      · simp [List.countP_append, h, forward_code]
      · split
        · simp [List.countP_append, h, forward_code]
        · exact h
  | ctxDone =>
    simp only [OutputTask.step]
    split <;> exact h
  | cancel => exact h
  | send output =>
    simp only [OutputTask.step]
    split <;> exact h
  | close => exact h

/-- The output goroutine never makes a reply with the opcode `replySpawnClose`,
whatever the process sends and however the steps interleave. -/
theorem output_run_no_close (steps : List OutputStep) :
    ∀ (t : OutputTask), t.replies.countP (fun r => r.code = replySpawnClose) = 0 →
      (t.run steps).replies.countP (fun r => r.code = replySpawnClose) = 0 := by
  induction steps with
  | nil => intro t h; exact h
  | cons st rest ih =>
    intro t h
    exact ih (t.step st) (output_step_no_close t st h)

/-- While values are buffered in the channel, each receive forwards the next one: after
as many receives as there are values, the replies are the forwarded values in stream
order. -/
theorem output_forwards_in_order (output : List ProcessOutput) :
    ∀ (t : OutputTask), t.output = output → t.returned = false →
      (t.run (List.replicate output.length .receive)).replies
        = t.replies ++ output.map OutputTask.forward := by
  induction output with
  | nil => intro t _ _; simp [OutputTask.run]
  | cons o rest ih =>
    intro t ho hr
    have hstep : t.step .receive
        = { t with output := rest, replies := t.replies ++ [OutputTask.forward o] } := by
      simp [OutputTask.step, hr, ho]
    simp only [List.length_cons, List.replicate_succ, OutputTask.run, List.foldl_cons]
    have := ih (t.step .receive) (by rw [hstep]) (by rw [hstep]; exact hr)
    simp only [OutputTask.run] at this
    rw [this, hstep]
    simp

/-- C8 (the code at the failing input): for a process that writes `"hi\n"` and whose
output channel is then closed, the output goroutine replies `SPAWN_WRITE("hi\n")` on
its first receive, replies a `SPAWN_WRITE` of no bytes on every further receive from
the closed channel, and under no sequence of steps makes a reply with the opcode
`replySpawnClose`. -/
theorem output_task_never_sends_close :
    ((OutputTask.start [⟨hiBytes, none⟩] true).run [.receive]).replies
      = [⟨replySpawnWrite, [.bytes hiBytes]⟩] ∧
    ((OutputTask.start [⟨hiBytes, none⟩] true).run [.receive, .receive]).replies
      = [⟨replySpawnWrite, [.bytes hiBytes]⟩, ⟨replySpawnWrite, [.bytes []]⟩] ∧
    (∀ steps : List OutputStep,
      ((OutputTask.start [⟨hiBytes, none⟩] true).run steps).replies.countP
        (fun r => r.code = replySpawnClose) = 0) := by
  refine ⟨by decide, by decide, ?_⟩
  intro steps
  exact output_run_no_close steps _ rfl

/-! ## The dispatchers: unknown opcodes, the profile without `type` -/

theorem hasPrefix_append_of_prefix (a b p : String) (h : p.data <+: a.data) :
    stringsHasPrefix (a ++ b) p = true := by
  unfold stringsHasPrefix
  rw [List.isPrefixOf_iff_prefix, String.data_append]
  exact h.trans (List.prefix_append _ _)

theorem hasPrefix_append_of_head_ne (a b p : String) (c d : Char) (ta tp : List Char)
    (ha : a.data = c :: ta) (hp : p.data = d :: tp) (hne : d ≠ c) :
    stringsHasPrefix (a ++ b) p = false := by
  unfold stringsHasPrefix
  rw [String.data_append, ha, hp]
  simp [List.isPrefixOf, hne]

/-- C9 (counterexample): for a SPOOL message whose profile has an empty `type` and is
printed as `map[]`, the message of the `SPOOL_ERROR` reply is not the bare text
"the profile does not have `type` option": the printed profile follows it. -/
theorem onSpool_no_type_counterexample :
    initialDispatch.Handle noTypeWorld ⟨spool, ["profile", "echo"]⟩
      = .returned none
          (some (.errorf "the profile does not have `type` option: map[]"))
          [.reply ⟨replySpoolError,
            [.codes 42 42, .str "the profile does not have `type` option: map[]"]⟩] ∧
    initialDispatch.Handle noTypeWorld ⟨spool, ["profile", "echo"]⟩
      ≠ .returned none
          (some (.errorf "the profile does not have `type` option"))
          [.reply ⟨replySpoolError,
            [.codes 42 42, .str "the profile does not have `type` option"]⟩] := by
  constructor <;> decide

/-- C9 (amended): for every SPOOL message handled in the Initial state whose arguments
unpack to a profile with an empty `type`, the dispatcher makes exactly one reply,
`SPOOL_ERROR` with the code pair (42,42) and the message
"the profile does not have `type` option: " followed by the printed profile, starts no
spool, and returns an error with that message and no successor state. -/
theorem onSpool_no_type (w : DispatchWorld) (msg : message) (opts : IsolateProfile)
    (name : String)
    (hop : msg.Number = spool)
    (hlen : 2 ≤ msg.Args.length)
    (hunpack : w.unpackSpool msg.Args = .ok (opts, name))
    (htype : opts.isolateType = "") :
    initialDispatch.Handle w msg
      = .returned none
          (some (.errorf ("the profile does not have `type` option: " ++ opts.render)))
          [.reply ⟨replySpoolError,
            [.codes 42 42,
              .str ("the profile does not have `type` option: " ++ opts.render)]⟩] := by
  have hl : ¬ msg.Args.length < 2 := by omega
  simp [initialDispatch.Handle, hop, initialDispatch.onSpool, hl, hunpack, htype,
    GoError.Error]

/-- Witness for `onSpool_no_type`: a SPOOL message whose profile prints as `map[]`. -/
theorem onSpool_no_type_witness :
    initialDispatch.Handle noTypeWorld ⟨spool, ["profile", "echo"]⟩
      = .returned none
          (some (.errorf ("the profile does not have `type` option: "
            ++ (⟨"", "map[]"⟩ : IsolateProfile).render)))
          [.reply ⟨replySpoolError,
            [.codes 42 42,
              .str ("the profile does not have `type` option: "
                ++ (⟨"", "map[]"⟩ : IsolateProfile).render)]⟩] :=
  onSpool_no_type noTypeWorld ⟨spool, ["profile", "echo"]⟩ ⟨"", "map[]"⟩ "echo" rfl
    (by decide) rfl rfl

theorem unknown_transition_text (n : Nat) :
    stringsHasPrefix ("unknown transition id: " ++ toString n) "unknown transition id"
      = true :=
  hasPrefix_append_of_prefix _ _ _ (by decide)

theorem no_type_text (r : String) :
    stringsHasPrefix ("the profile does not have `type` option: " ++ r)
      "unknown transition id" = false :=
  hasPrefix_append_of_head_ne _ _ _ 't' 'u' "he profile does not have `type` option: ".data
    "nknown transition id".data rfl rfl (by decide)

theorem not_available_text (t : String) :
    stringsHasPrefix ("isolate type " ++ t ++ " is not available")
      "unknown transition id" = false := by
  rw [String.append_assoc]
  exact hasPrefix_append_of_head_ne _ _ _ 'i' 'u' "solate type ".data
    "nknown transition id".data rfl rfl (by decide)

theorem corrupted_text (r : String) :
    stringsHasPrefix ("corrupted profile: " ++ r) "unknown transition id" = false :=
  hasPrefix_append_of_head_ne _ _ _ 'c' 'u' "orrupted profile: ".data
    "nknown transition id".data rfl rfl (by decide)

/-- C10 (counterexample): the opcode `spawn` is recognised by the Initial state, and
yet `Handle` returns an error whose text begins with "unknown transition id": the
error that `unpackArgs` handed back, passed on unchanged by `onSpawn`. -/
theorem Handle_recognised_counterexample :
    initialDispatch.Handle passThroughWorld ⟨spawn, []⟩
      = .returned none (some (.other "unknown transition id: 1")) [] ∧
    stringsHasPrefix (GoError.other "unknown transition id: 1").Error
      "unknown transition id" = true := by
  constructor <;> decide

/-- C10 (amended): a message whose opcode the current state does not recognise
(Initial: neither `spool` nor `spawn`; SpawnStreaming: not `spawnKill`) makes `Handle`
return no successor and the error "unknown transition id: N", whose text begins with
"unknown transition id", without any reply or goroutine. For a recognised opcode
`Handle` does not make that error: in SpawnStreaming it returns no error at all, and in
the Initial state an error it returns with such a text can only be one handed back by
`unpackArgs` or by `box.Spawn` and passed on unchanged. -/
theorem Handle_unknown_transition (w : DispatchWorld) (msg : message) :
    (msg.Number ≠ spool → msg.Number ≠ spawn →
      initialDispatch.Handle w msg
        = .returned none
            (some (.errorf ("unknown transition id: " ++ toString msg.Number))) []) ∧
    (msg.Number ≠ spawnKill →
      spawnDispatch.Handle msg
        = .returned none
            (some (.errorf ("unknown transition id: " ++ toString msg.Number))) []) ∧
    stringsHasPrefix
      (GoError.errorf ("unknown transition id: " ++ toString msg.Number)).Error
      "unknown transition id" = true ∧
    (msg.Number = spawnKill → spawnDispatch.Handle msg = .returned none none [.goKill]) ∧
    (msg.Number = spool → ∀ next e effects,
      initialDispatch.Handle w msg = .returned next (some e) effects →
      stringsHasPrefix e.Error "unknown transition id" = true →
      w.unpackSpool msg.Args = .error e) ∧
    (msg.Number = spawn → ∀ next e effects,
      initialDispatch.Handle w msg = .returned next (some e) effects →
      stringsHasPrefix e.Error "unknown transition id" = true →
      w.unpackSpawn msg.Args = .error e ∨
      ∃ opts name executable args env box,
        w.unpackSpawn msg.Args = .ok (opts, name, executable, args, env) ∧
        w.boxes.lookup opts.isolateType = some box ∧
        box.Spawn opts name executable args env = .error e) := by
  refine ⟨?_, ?_, unknown_transition_text _, ?_, ?_, ?_⟩
  · intro h0 h1
    simp [initialDispatch.Handle, h0, h1]
  · intro h0
    simp [spawnDispatch.Handle, h0]
  · intro h0
    simp [spawnDispatch.Handle, h0]
  · intro h0 next e effects hH hpre
    have hS : initialDispatch.Handle w msg = initialDispatch.onSpool w msg := by
      simp [initialDispatch.Handle, h0]
    rw [hS] at hH
    unfold initialDispatch.onSpool at hH
    split at hH
    · cases hH
    · split at hH
      · rename_i err herr
        simp only [Handled.returned.injEq, Option.some.injEq] at hH
        obtain ⟨_, rfl, _⟩ := hH
        exact herr
      · simp only at hH
        split at hH
        · simp only [Handled.returned.injEq, Option.some.injEq] at hH
          obtain ⟨_, rfl, _⟩ := hH
          simp [GoError.Error, no_type_text] at hpre
        · split at hH
          · simp only [Handled.returned.injEq, Option.some.injEq] at hH
            obtain ⟨_, rfl, _⟩ := hH
            simp [GoError.Error, not_available_text] at hpre
          · simp at hH
  · intro h0 next e effects hH hpre
    have hS : initialDispatch.Handle w msg = initialDispatch.onSpawn w msg := by
      simp [initialDispatch.Handle, h0, spawn, spool]
    rw [hS] at hH
    unfold initialDispatch.onSpawn at hH
    split at hH
    · rename_i err herr
      simp only [Handled.returned.injEq, Option.some.injEq] at hH
      obtain ⟨_, rfl, _⟩ := hH
      exact Or.inl herr
    · rename_i opts name executable args env hunpack
      simp only at hH
      split at hH
      · simp only [Handled.returned.injEq, Option.some.injEq] at hH
        obtain ⟨_, rfl, _⟩ := hH
        simp [GoError.Error, corrupted_text] at hpre
      · split at hH
        · simp only [Handled.returned.injEq, Option.some.injEq] at hH
          obtain ⟨_, rfl, _⟩ := hH
          simp [GoError.Error, not_available_text] at hpre
        · rename_i box hbox
          split at hH
          · rename_i err herr
            simp only [Handled.returned.injEq, Option.some.injEq] at hH
            obtain ⟨_, rfl, _⟩ := hH
            exact Or.inr ⟨opts, name, executable, args, env, box, hunpack, hbox, herr⟩
          · simp at hH

/-- Witness for `Handle_unknown_transition`: the opcode 7 in both states, `spawnKill`
in SpawnStreaming, and the recognised opcodes `spool` and `spawn` in a context whose
`unpackArgs` fails with a text that begins with "unknown transition id". -/
theorem Handle_unknown_transition_witness :
    initialDispatch.Handle noTypeWorld ⟨7, []⟩
      = .returned none (some (.errorf ("unknown transition id: " ++ toString 7))) [] ∧
    spawnDispatch.Handle ⟨7, []⟩
      = .returned none (some (.errorf ("unknown transition id: " ++ toString 7))) [] ∧
    spawnDispatch.Handle ⟨spawnKill, []⟩ = .returned none none [.goKill] ∧
    passThroughWorld.unpackSpool ["profile", "echo"]
      = .error (.other "unknown transition id: 0") ∧
    (passThroughWorld.unpackSpawn [] = .error (.other "unknown transition id: 1") ∨
      ∃ opts name executable args env box,
        passThroughWorld.unpackSpawn [] = .ok (opts, name, executable, args, env) ∧
        passThroughWorld.boxes.lookup opts.isolateType = some box ∧
        box.Spawn opts name executable args env
          = .error (.other "unknown transition id: 1")) :=
  ⟨(Handle_unknown_transition noTypeWorld ⟨7, []⟩).1 (by decide) (by decide),
    (Handle_unknown_transition noTypeWorld ⟨7, []⟩).2.1 (by decide),
    (Handle_unknown_transition noTypeWorld ⟨spawnKill, []⟩).2.2.2.1 rfl,
    (Handle_unknown_transition passThroughWorld ⟨spool, ["profile", "echo"]⟩).2.2.2.2.1 rfl
      none (.other "unknown transition id: 0")
      [.reply ⟨replySpoolError,
        [.codes 42 42, .str "unbale to unpack args: unknown transition id: 0"]⟩]
      (by decide) (by decide),
    (Handle_unknown_transition passThroughWorld ⟨spawn, []⟩).2.2.2.2.2 rfl
      none (.other "unknown transition id: 1") [] (by decide) (by decide)⟩

/-! ## Client kill against the reaper: how often `Cleanup` runs -/

theorem cleanup_count (c : container) (id : String) :
    c.Cleanup.count (Event.enterCleanup id) = if c.containerID = id then 1 else 0 := by
  have hmap : (c.extraVolumes.map (fun v => Event.volumeDestroy v.Path)).count
      (Event.enterCleanup id) = 0 := by
    rw [List.count_eq_zero]
    intro hmem
    obtain ⟨v, _, hv⟩ := List.mem_map.mp hmem
    cases hv
  unfold container.Cleanup
  split
  · by_cases h : c.containerID = id <;> simp [List.count_cons, h]
  · by_cases h : c.containerID = id <;> simp [List.count_cons, List.count_append, hmap, h]

theorem kill_body_count (w : EngineWorld) (c : container) (id : String) :
    (container.Kill.body w c).2.count (Event.enterCleanup id) = 0 := by
  unfold container.Kill.body
  simp only
  split
  · split <;> simp [List.count_cons]
  · split <;> simp [List.count_cons, List.count_append]

theorem kill_count_le (w : EngineWorld) (c : container) (id : String) :
    (c.Kill w).2.count (Event.enterCleanup id) ≤ if c.containerID = id then 1 else 0 := by
  unfold container.Kill
  simp only
  split
  · simp [List.count_cons]
  · simp only [List.count_append, kill_body_count, cleanup_count]
    simp [List.count_cons]

theorem lookup_mem (k : String) (v : container) :
    ∀ (m : List (String × container)), m.lookup k = some v → (k, v) ∈ m := by
  intro m
  induction m with
  | nil => intro h; simp [List.lookup] at h
  | cons e rest ih =>
    intro h
    obtain ⟨k1, v1⟩ := e
    by_cases hk : k = k1
    · subst hk
      simp [List.lookup] at h
      subst h
      exact List.mem_cons_self _ _
    · have hb : (k == k1) = false := by simpa using hk
      simp only [List.lookup, hb] at h
      exact List.mem_cons_of_mem _ (ih h)

theorem containersDelete_cons (k k1 : String) (v1 : container)
    (rest : List (String × container)) :
    containersDelete ((k1, v1) :: rest) k
      = if k1 = k then containersDelete rest k else (k1, v1) :: containersDelete rest k := by
  unfold containersDelete
  by_cases h : k1 = k <;> simp [List.filter_cons, h]

theorem lookup_delete_self (k : String) :
    ∀ (m : List (String × container)), (containersDelete m k).lookup k = none := by
  intro m
  induction m with
  | nil => rfl
  | cons e rest ih =>
    obtain ⟨k1, v1⟩ := e
    rw [containersDelete_cons]
    split
    · exact ih
    · rename_i hk
      have hb : (k == k1) = false := by simpa using fun h : k = k1 => hk h.symm
      simp only [List.lookup_cons, hb]
      exact ih

theorem lookup_delete_ne (k id : String) (h : id ≠ k) :
    ∀ (m : List (String × container)), (containersDelete m k).lookup id = m.lookup id := by
  intro m
  induction m with
  | nil => rfl
  | cons e rest ih =>
    obtain ⟨k1, v1⟩ := e
    rw [containersDelete_cons]
    split
    · rename_i hk
      have hb : (id == k1) = false := by simpa [hk] using h
      simp only [List.lookup_cons, hb]
      exact ih
    · by_cases hid : id = k1
      · have hb : (id == k1) = true := by simpa using hid
        simp only [List.lookup_cons, hb]
      · have hb : (id == k1) = false := by simpa using hid
        simp only [List.lookup_cons, hb]
        exact ih

theorem remove_inv (w : EngineWorld) (id : String) (b : Box) (tr : List Event) (k : String)
    (h : reaperInv id b tr) :
    reaperInv id (Box.waitLoop.remove w b k).1 (tr ++ (Box.waitLoop.remove w b k).2) := by
  obtain ⟨hw, h1, h2⟩ := h
  unfold Box.waitLoop.remove
  split
  · rename_i cnt hlook
    have hid : cnt.containerID = k := hw _ (lookup_mem k cnt _ hlook)
    have hkc := kill_count_le w cnt id
    have hw2 : Box.wellKeyed { b with containers := containersDelete b.containers k } := by
      intro e he
      exact hw e (List.mem_of_mem_filter he)
    by_cases hk : id = k
    · subst hk
      have h0 := h2 (by rw [hlook]; simp)
      refine ⟨hw2, ?_, ?_⟩
      · simp only [List.count_append]
        split at hkc <;> omega
      · intro hne
        exact absurd (lookup_delete_self id b.containers) hne
    · have hne : ¬ cnt.containerID = id := by
        rw [hid]
        exact fun h => hk h.symm
      simp only [hne, if_false] at hkc
      refine ⟨hw2, ?_, ?_⟩
      · simp only [List.count_append]
        omega
      · intro hl
        simp only [lookup_delete_ne k id hk] at hl
        simp only [List.count_append]
        have := h2 hl
        omega
  · simpa using ⟨hw, h1, h2⟩

theorem reaperInv_append (id : String) (b : Box) (tr extra : List Event)
    (h : reaperInv id b tr) (hx : extra.count (Event.enterCleanup id) = 0) :
    reaperInv id b (tr ++ extra) := by
  obtain ⟨hw, h1, h2⟩ := h
  refine ⟨hw, ?_, ?_⟩
  · simp only [List.count_append]
    omega
  · intro hl
    have := h2 hl
    simp only [List.count_append]
    omega

theorem visit_inv (w : EngineWorld) (id : String) (b : Box) (tr0 : List Event) (k : String)
    (h : reaperInv id b tr0) : (Box.waitLoop.visit w b k).inv id tr0 := by
  have hg : reaperInv id b (tr0 ++ [Event.getProperty k "state"]) :=
    reaperInv_append id b tr0 _ h (by simp [List.count_cons])
  unfold Box.waitLoop.visit
  simp only
  split
  · split
    · split
      · have r1 := remove_inv w id b _ k hg
        have r2 := remove_inv w id _ _ k r1
        simpa [Visited.inv, List.append_assoc] using r2
      · have r1 := remove_inv w id b _ k hg
        simpa [Visited.inv, List.append_assoc] using r1
    · have := reaperInv_append id b _ [Event.portoClose] hg (by simp [List.count_cons])
      simpa [Visited.inv, List.append_assoc] using this
  · simpa [Visited.inv] using hg
  · split
    · have r1 := remove_inv w id b _ k hg
      simpa [Visited.inv, List.append_assoc] using r1
    · simpa [Visited.inv] using hg

theorem visitAll_inv (w : EngineWorld) (id : String) (tr0 : List Event) (ks : List String) :
    ∀ (b : Box) (tr : List Event), reaperInv id b (tr0 ++ tr) →
      (Box.waitLoop.visitAll w ks b tr).inv id tr0 := by
  induction ks with
  | nil => intro b tr h; simpa [Box.waitLoop.visitAll, Visited.inv] using h
  | cons k rest ih =>
    intro b tr h
    have hv := visit_inv w id b (tr0 ++ tr) k h
    unfold Box.waitLoop.visitAll
    split
    · rename_i b1 tr1 heq
      rw [heq] at hv
      simp only [Visited.inv, List.append_assoc] at hv
      exact ih b1 (tr ++ tr1) hv
    · rename_i b1 tr1 heq
      rw [heq] at hv
      simpa [Visited.inv, List.append_assoc] using hv
    · rename_i b1 tr1 heq
      rw [heq] at hv
      simpa [Visited.inv, List.append_assoc] using hv

theorem race_step_inv (c : container) (s : KillRace) (st : RaceStep) (h : s.inv c) :
    (s.step c st).inv c := by
  obtain ⟨h1, h2, h3⟩ := h
  cases st with
  | clientKill w =>
    simp only [KillRace.step]
    split
    · rename_i hk
      have h0 := h2 hk
      have hkc := kill_count_le w c c.containerID
      simp only [if_true] at hkc
      refine ⟨?_, ?_, h3⟩
      · simp only [List.count_append]
        omega
      · intro hk2
        simp at hk2
    · exact ⟨h1, h2, h3⟩
  | reaperPass w =>
    simp only [KillRace.step]
    split
    · exact ⟨h1, h2, h3⟩
    · have hp := visitAll_inv w c.containerID s.reaperTrace
        (s.box.containers.map (fun e => e.1)) s.box [] (by simpa using h3)
      unfold Box.waitLoop.pass
      split
      · rename_i b tr heq
        rw [heq] at hp
        exact ⟨h1, h2, hp⟩
      · rename_i b tr heq
        rw [heq] at hp
        exact ⟨h1, h2, hp⟩
      · rename_i b tr heq
        rw [heq] at hp
        exact ⟨h1, h2, hp⟩

theorem race_run_inv (c : container) (steps : List RaceStep) :
    ∀ (s : KillRace), s.inv c → (s.run c steps).inv c := by
  induction steps with
  | nil => intro s h; exact h
  | cons st rest ih =>
    intro s h
    exact ih (s.step c st) (race_step_inv c s st h)

/-- C4 (counterexample): the container `echo_u` is registered; the client kill runs
`Cleanup` once and leaves the id in the map; the next reaper pass finds the container
gone from the engine and the id still in the map, and runs `Kill()` and with it
`Cleanup` a second time. -/
theorem cleanup_twice_counterexample :
    spawnedBox.containers.lookup "echo_u" = some { sampleContainer with output := "out" } ∧
    (((KillRace.start spawnedBox 0).run { sampleContainer with output := "out" }
        [.clientKill engineOk, .reaperPass engineGone]).clientTrace
      ++ ((KillRace.start spawnedBox 0).run { sampleContainer with output := "out" }
        [.clientKill engineOk, .reaperPass engineGone]).reaperTrace).count
      (Event.enterCleanup "echo_u") = 2 := by
  constructor <;> decide

/-- C4 (amended): for a container `c` held by a dispatcher, a box whose map is keyed by
engine id, any initial value of the dispatcher's flag, and any interleaving of client
kills with reaper passes (whatever the engine answers in each): `Cleanup` is entered
for the engine id of `c` at most once by the client's kill goroutine and at most once
by the reaper. -/
theorem cleanup_once_per_actor (c : container) (b : Box) (flagKilled : Nat)
    (steps : List RaceStep) (hw : b.wellKeyed) :
    ((KillRace.start b flagKilled).run c steps).clientTrace.count
      (Event.enterCleanup c.containerID) ≤ 1 ∧
    ((KillRace.start b flagKilled).run c steps).reaperTrace.count
      (Event.enterCleanup c.containerID) ≤ 1 := by
  have h0 : (KillRace.start b flagKilled).inv c := by
    refine ⟨?_, ?_, hw, ?_, ?_⟩ <;> simp [KillRace.start]
  obtain ⟨h1, _, _, h3, _⟩ := race_run_inv c steps _ h0
  exact ⟨h1, h3⟩

/-- Witness for `cleanup_once_per_actor`: the registered container `echo_u`, killed by
the client and then found gone by the reaper. -/
theorem cleanup_once_per_actor_witness :
    ((KillRace.start spawnedBox 0).run { sampleContainer with output := "out" }
      [.clientKill engineOk, .reaperPass engineGone]).clientTrace.count
      (Event.enterCleanup ({ sampleContainer with output := "out" } : container).containerID)
      ≤ 1 ∧
    ((KillRace.start spawnedBox 0).run { sampleContainer with output := "out" }
      [.clientKill engineOk, .reaperPass engineGone]).reaperTrace.count
      (Event.enterCleanup ({ sampleContainer with output := "out" } : container).containerID)
      ≤ 1 :=
  cleanup_once_per_actor { sampleContainer with output := "out" } spawnedBox 0
    [.clientKill engineOk, .reaperPass engineGone] (by unfold Box.wellKeyed; decide)

/-! ## Spool: binding the network allocations -/

theorem helper_loop_bind_steps (w : SpoolWorld) (config : portoBoxConfig) (ls : List Layer) :
    ∀ (acc : List String) (tr : List Event),
      (getLayersViaDownloadHelper.loop w config ls acc tr).2.2.filter Event.isBindStep
        = tr.filter Event.isBindStep := by
  induction ls with
  | nil => intro acc tr; rfl
  | cons layer rest ih =>
    intro acc tr
    simp only [getLayersViaDownloadHelper.loop]
    repeat' split
    all_goals simp [ih, Event.isBindStep]

theorem registry_loop_bind_steps (w : SpoolWorld) (ls : List String) :
    ∀ (acc : List String) (tr : List Event),
      (getLayersViaRegistry.loop w ls acc tr).2.2.filter Event.isBindStep
        = tr.filter Event.isBindStep := by
  induction ls with
  | nil => intro acc tr; rfl
  | cons layer rest ih =>
    intro acc tr
    simp only [getLayersViaRegistry.loop]
    repeat' split
    all_goals simp [ih, Event.isBindStep]

theorem helper_bind_steps (w : SpoolWorld) (b : Box) (name : String) (profile : Profile) :
    (b.getLayersViaDownloadHelper w name profile).trace.filter Event.isBindStep = [] := by
  have key := helper_loop_bind_steps w b.config profile.ExtendedInfoLayers []
    [Event.enterHelper name, Event.portoConnect]
  unfold Box.getLayersViaDownloadHelper
  simp only
  split
  · simp [Event.isBindStep]
  · split
    · rename_i heq
      rw [heq] at key
      simp only at key
      simp [key, Event.isBindStep]
    · rename_i heq
      rw [heq] at key
      simp only at key
      simp [key, Event.isBindStep]

theorem importAll_bind_steps (w : SpoolWorld) (b : Box) (name : String)
    (ordered : List String) (tr : List Event) :
    (getLayersViaRegistry.importAll w b name ordered tr).trace.filter Event.isBindStep
      = tr.filter Event.isBindStep := by
  have key := registry_loop_bind_steps w ordered [] (tr ++ [Event.portoConnect])
  unfold getLayersViaRegistry.importAll
  simp only
  split
  · simp [Event.isBindStep]
  · split
    · rename_i heq
      rw [heq] at key
      simp only at key
      simp [key, Event.isBindStep]
    · rename_i heq
      rw [heq] at key
      simp only at key
      simp [key, Event.isBindStep]

theorem registry_bind_steps (w : SpoolWorld) (b : Box) (name : String) (profile : Profile) :
    (b.getLayersViaRegistry w name profile).trace.filter Event.isBindStep = [] := by
  unfold Box.getLayersViaRegistry
  simp only
  repeat' split
  all_goals simp [importAll_bind_steps, Event.isBindStep]

/-- The calls of the last part of `Box.Spool`: `journalContent.Set`, then
`BindAllocs(netid)` iff the allocation service is enabled in the configuration and the
profile's `mtn` option is `enable`. -/
theorem bind_steps (w : SpoolWorld) (b : Box) (profile : Profile) (tr : List Event)
    (htr : tr.filter Event.isBindStep = []) :
    (Box.Spool.bind w b profile tr).trace.filter Event.isBindStep
      = Event.journalContentSet ::
          (if w.mtnCfgEnable = true ∧ mapGet profile.Network "mtn" = "enable"
            then [Event.bindAllocs (mapGet profile.Network "netid")] else []) := by
  unfold Box.Spool.bind
  simp only
  split
  · split <;> simp [htr, Event.isBindStep]
  · simp [htr, Event.isBindStep]

theorem bind_err (w : SpoolWorld) (b : Box) (profile : Profile) (tr : List Event) :
    (Box.Spool.bind w b profile tr).err =
      if w.mtnCfgEnable = true ∧ mapGet profile.Network "mtn" = "enable" then
        (w.bindAllocs (mapGet profile.Network "netid")).map (fun err =>
          GoError.errorf ("Cant bind mtn alllocaton at spool with netid: "
            ++ mapGet profile.Network "netid" ++ ", and error: " ++ err.Error))
      else none := by
  unfold Box.Spool.bind
  simp only
  split
  · split <;> simp_all
  · rfl

/-- `Box.Spool.finish` either stops before the last part, or is the last part run
after calls that are not bind steps. -/
theorem finish_shape (w : SpoolWorld) (b : Box) (name : String) (profile : Profile)
    (imported : Bool) (errGet : Option GoError) (tr : List Event)
    (htr : tr.filter Event.isBindStep = []) :
    (Box.Spool.finish w b name profile imported errGet tr).trace.filter Event.isBindStep = []
    ∨ ∃ b1 tr1, Box.Spool.finish w b name profile imported errGet tr
        = Box.Spool.bind w b1 profile tr1 ∧ tr1.filter Event.isBindStep = [] := by
  cases imported with
  | false =>
    cases h : (b.getLayersViaRegistry w name profile).err with
    | some err =>
      left
      simp [Box.Spool.finish, h, htr, registry_bind_steps]
    | none =>
      right
      refine ⟨{ b with journal := (b.getLayersViaRegistry w name profile).journal },
        tr ++ (b.getLayersViaRegistry w name profile).trace, ?_, ?_⟩
      · simp [Box.Spool.finish, h]
      · simp [htr, registry_bind_steps]
  | true =>
    cases errGet with
    | some err =>
      left
      simpa [Box.Spool.finish] using htr
    | none =>
      right
      exact ⟨b, tr, by simp [Box.Spool.finish], htr⟩

theorem Spool_shape (w : SpoolWorld) (b : Box) (name : String) (opts : RawProfile)
    (profile : Profile) (hdec : opts.DecodeTo = .ok profile) :
    (b.Spool w name opts).trace.filter Event.isBindStep = []
    ∨ ∃ b1 tr1, b.Spool w name opts = Box.Spool.bind w b1 profile tr1
        ∧ tr1.filter Event.isBindStep = [] := by
  unfold Box.Spool
  rw [hdec]
  simp only
  by_cases hc : profile.ExtendedInfoLayers.length > 0 ∧ b.dhEnable = true
  · rw [if_pos hc]
    cases h : (b.getLayersViaDownloadHelper w name profile).err with
    | some err =>
      exact finish_shape w _ name profile false _ _ (helper_bind_steps w b name profile)
    | none =>
      exact finish_shape w _ name profile true _ _ (helper_bind_steps w b name profile)
  · rw [if_neg hc]
    exact finish_shape w b name profile false none [] rfl

/-- C11 (counterexample): the layers are obtained and the profile's `mtn` option is
`enable`, but the allocation service is switched off in the configuration of the
daemon: `Spool` returns no error and never calls `BindAllocs`. -/
theorem Spool_bindAllocs_counterexample :
    mapGet mtnProfile.Network "mtn" = "enable" ∧
    Event.journalContentSet ∈ (sampleBox.Spool mtnOffWorld "echo" ⟨.ok mtnProfile⟩).trace ∧
    (sampleBox.Spool mtnOffWorld "echo" ⟨.ok mtnProfile⟩).trace.count
      (Event.bindAllocs "n1") = 0 ∧
    (sampleBox.Spool mtnOffWorld "echo" ⟨.ok mtnProfile⟩).err = none := by
  refine ⟨by decide, by decide, by decide, by decide⟩

/-- C11 (amended): for every `Box.Spool` call whose profile decodes and whose layers
were obtained (the call reaches `journalContent.Set`). If the allocation service is
enabled in the configuration (`Mtn.Cfg.Enable`) and the profile's `mtn` option is
`enable`, then `BindAllocs` is called, once, with the profile's `netid`; if that call
fails, `Spool` returns the error built from it, and else no error. Otherwise
`BindAllocs` is not called and `Spool` returns no error. -/
theorem Spool_bindAllocs (w : SpoolWorld) (b : Box) (name : String) (opts : RawProfile)
    (profile : Profile) (hdec : opts.DecodeTo = .ok profile)
    (hok : Event.journalContentSet ∈ (b.Spool w name opts).trace) :
    (w.mtnCfgEnable = true ∧ mapGet profile.Network "mtn" = "enable" →
      (b.Spool w name opts).trace.filter Event.isBindStep
        = [Event.journalContentSet, Event.bindAllocs (mapGet profile.Network "netid")] ∧
      (∀ err, w.bindAllocs (mapGet profile.Network "netid") = some err →
        (b.Spool w name opts).err
          = some (.errorf ("Cant bind mtn alllocaton at spool with netid: "
              ++ mapGet profile.Network "netid" ++ ", and error: " ++ err.Error))) ∧
      (w.bindAllocs (mapGet profile.Network "netid") = none →
        (b.Spool w name opts).err = none)) ∧
    (¬ (w.mtnCfgEnable = true ∧ mapGet profile.Network "mtn" = "enable") →
      (b.Spool w name opts).trace.filter Event.isBindStep = [Event.journalContentSet] ∧
      (b.Spool w name opts).err = none) := by
  have hmem : Event.journalContentSet ∈ (b.Spool w name opts).trace.filter Event.isBindStep :=
    List.mem_filter.mpr ⟨hok, rfl⟩
  rcases Spool_shape w b name opts profile hdec with hnil | ⟨b1, tr1, hS, htr1⟩
  · rw [hnil] at hmem
    simp at hmem
  · have hsteps := bind_steps w b1 profile tr1 htr1
    have herr := bind_err w b1 profile tr1
    rw [← hS] at hsteps herr
    constructor
    · intro hc
      rw [if_pos hc] at hsteps herr
      refine ⟨hsteps, ?_, ?_⟩
      · intro err he
        rw [herr, he]
        rfl
      · intro he
        rw [herr, he]
        rfl
    · intro hc
      rw [if_neg hc] at hsteps herr
      exact ⟨hsteps, herr⟩

/-- Witness for `Spool_bindAllocs`: the helper delivers the layer, the allocation
service is enabled and fails to bind the project `n1`. -/
theorem Spool_bindAllocs_witness :
    (mtnFailsWorld.mtnCfgEnable = true ∧ mapGet mtnProfile.Network "mtn" = "enable" →
      (sampleBox.Spool mtnFailsWorld "echo" ⟨.ok mtnProfile⟩).trace.filter Event.isBindStep
        = [Event.journalContentSet, Event.bindAllocs (mapGet mtnProfile.Network "netid")] ∧
      (∀ err, mtnFailsWorld.bindAllocs (mapGet mtnProfile.Network "netid") = some err →
        (sampleBox.Spool mtnFailsWorld "echo" ⟨.ok mtnProfile⟩).err
          = some (.errorf ("Cant bind mtn alllocaton at spool with netid: "
              ++ mapGet mtnProfile.Network "netid" ++ ", and error: " ++ err.Error))) ∧
      (mtnFailsWorld.bindAllocs (mapGet mtnProfile.Network "netid") = none →
        (sampleBox.Spool mtnFailsWorld "echo" ⟨.ok mtnProfile⟩).err = none)) ∧
    (¬ (mtnFailsWorld.mtnCfgEnable = true ∧ mapGet mtnProfile.Network "mtn" = "enable") →
      (sampleBox.Spool mtnFailsWorld "echo" ⟨.ok mtnProfile⟩).trace.filter Event.isBindStep
        = [Event.journalContentSet] ∧
      (sampleBox.Spool mtnFailsWorld "echo" ⟨.ok mtnProfile⟩).err = none) :=
  Spool_bindAllocs mtnFailsWorld sampleBox "echo" ⟨.ok mtnProfile⟩ mtnProfile rfl (by decide)

/-! ## The helper timeout -/

theorem helper_loop_extends (w : SpoolWorld) (config : portoBoxConfig) (ls : List Layer) :
    ∀ (acc : List String) (tr : List Event),
      tr <+: (getLayersViaDownloadHelper.loop w config ls acc tr).2.2 := by
  induction ls with
  | nil => intro acc tr; exact List.prefix_refl _
  | cons layer rest ih =>
    intro acc tr
    simp only [getLayersViaDownloadHelper.loop]
    repeat' split
    all_goals first
      | exact List.prefix_append _ _
      | (simp only [List.append_assoc]; exact List.prefix_append _ _)
      | exact (List.prefix_append _ _).trans (ih _ _)
      | (refine List.IsPrefix.trans ?_ (ih _ _)
         simp only [List.append_assoc]
         exact List.prefix_append _ _)

theorem helperTimeout_eq (size : Nat) (h : size < 2 ^ 64) :
    helperTimeout size = toString (300 + 60 * (size / 104857600)) := by
  unfold helperTimeout
  have h1 : (100 * 1024 * 1024 : Nat) = 104857600 := by norm_num
  have h2 : (2 : Nat) ^ 64 = 18446744073709551616 := by norm_num
  rw [h1, h2] at *
  have h3 : (60 * (size / 104857600)) % 18446744073709551616 = 60 * (size / 104857600) :=
    Nat.mod_eq_of_lt (by omega)
  rw [h3]
  have h4 : (300 + 60 * (size / 104857600)) % 18446744073709551616
      = 300 + 60 * (size / 104857600) := Nat.mod_eq_of_lt (by omega)
  rw [h4]

/-- C13 (counterexample): for the declared layer of size 1 byte the helper is run with
`-t 300`, while `300 + 60·ceil(1 / 104857600)` is 360. -/
theorem helper_timeout_counterexample :
    Event.exec "helper" ["get", "-d", "/layers", "-t", "300", "t"]
      ∈ (sampleBox.getLayersViaDownloadHelper mismatchWorld "echo" sampleProfile).trace ∧
    (sampleProfile.ExtendedInfoLayers.map (fun l => helperTimeout l.Size)) = ["300"] ∧
    (sampleProfile.ExtendedInfoLayers.map (fun l => helperTimeoutSpec l.Size)) = ["360"] := by
  refine ⟨by decide, by decide, by decide⟩

/-- C13 (amended): for every declared helper layer of size `s` bytes (an unsigned
64-bit number), the helper command is run with the arguments
`get -d <layersDir> -t <timeout> <torrentId>` where `<timeout>` is the decimal rendering
of `300 + 60·floor(s / 104857600)`: the code divides integers, so the quotient is
rounded down. -/
theorem helper_timeout_floor (w : SpoolWorld) (config : portoBoxConfig) (layer : Layer)
    (rest : List Layer) (acc : List String) (tr : List Event)
    (hsize : layer.Size < 2 ^ 64) :
    tr ++ [Event.exec config.DownloadHelperCmd
      ["get", "-d", config.Layers, "-t", toString (300 + 60 * (layer.Size / 104857600)),
        layer.TorrentId]]
      <+: (getLayersViaDownloadHelper.loop w config (layer :: rest) acc tr).2.2 := by
  rw [← helperTimeout_eq layer.Size hsize]
  simp only [getLayersViaDownloadHelper.loop]
  repeat' split
  all_goals first
    | exact List.prefix_refl _
    | exact List.prefix_append _ _
    | exact (List.prefix_append _ _).trans (List.prefix_append _ _)
    | exact ((List.prefix_append _ _).trans (List.prefix_append _ _)).trans
        (helper_loop_extends w config rest _ _)

/-- Witness for `helper_timeout_floor`: a layer of 250 MiB gets `-t 420`. -/
theorem helper_timeout_floor_witness :
    [] ++ [Event.exec sampleConfig.DownloadHelperCmd
      ["get", "-d", sampleConfig.Layers, "-t",
        toString (300 + 60 * ((⟨"aa", "sha256", 262144000, "t"⟩ : Layer).Size / 104857600)),
        (⟨"aa", "sha256", 262144000, "t"⟩ : Layer).TorrentId]]
      <+: (getLayersViaDownloadHelper.loop mismatchWorld sampleConfig
            (⟨"aa", "sha256", 262144000, "t"⟩ :: []) [] []).2.2 :=
  helper_timeout_floor mismatchWorld sampleConfig ⟨"aa", "sha256", 262144000, "t"⟩ [] [] []
    (by norm_num)

/-! ## `newContainer`: volumes left behind on failure -/

/-- C14 (the code at the failing inputs): when creating the extra volumes fails,
`newContainer` returns the error without a call of its own to destroy the root volume
it created; when creating the engine container fails, it destroys the root volume
only, not the extra volume that was created. -/
theorem newContainer_leaves_volumes :
    (newContainer engineExtraVolumesFail sampleContainerConfig).2
      = [Event.createRootVolume "echo_u", Event.createExtraVolumes "echo_u"] ∧
    (newContainer engineExtraVolumesFail sampleContainerConfig).2.count
      (Event.volumeDestroy "/containers/echo_u/volume") = 0 ∧
    (newContainer engineCreateFails sampleContainerConfig).2
      = [Event.createRootVolume "echo_u", Event.createExtraVolumes "echo_u",
          Event.createContainer "echo_u", Event.volumeDestroy "/containers/echo_u/volume"] ∧
    (newContainer engineCreateFails sampleContainerConfig).2.count
      (Event.volumeDestroy "/containers/echo_u/extra0") = 0 := by
  refine ⟨by decide, by decide, by decide, by decide⟩

/-! ## The registry source: the image reference -/

/-- C16 (the code at the failing input): for the repository `p` and the app `echo` the
registry source parses `p/p/echo` as the image reference, not `p/echo`: the repository
is joined in twice. -/
theorem registry_reference_repeats_repository :
    sampleProfile.Repository = "p" ∧
    (sampleBox.getLayersViaRegistry mismatchWorld "echo" sampleProfile).trace.take 2
      = [Event.enterRegistry "echo", Event.parseNamed "p/p/echo"] ∧
    (sampleBox.getLayersViaRegistry mismatchWorld "echo" sampleProfile).trace.count
      (Event.parseNamed "p/echo") = 0 := by
  refine ⟨by decide, by decide, by decide⟩

/-! ## The reaper pass -/

theorem cleanup_enterKill_count (c : container) (id : String) :
    c.Cleanup.count (Event.enterKill id) = 0 := by
  have hmap : (c.extraVolumes.map (fun v => Event.volumeDestroy v.Path)).count
      (Event.enterKill id) = 0 := by
    rw [List.count_eq_zero]
    intro hmem
    obtain ⟨v, _, hv⟩ := List.mem_map.mp hmem
    cases hv
  unfold container.Cleanup
  split
  · simp [List.count_cons]
  · simp [List.count_cons, List.count_append, hmap]

theorem kill_body_enterKill_count (w : EngineWorld) (c : container) (id : String) :
    (container.Kill.body w c).2.count (Event.enterKill id) = 0 := by
  unfold container.Kill.body
  simp only
  split
  · split <;> simp [List.count_cons]
  · split <;> simp [List.count_cons, List.count_append]

theorem kill_enterKill_count (w : EngineWorld) (c : container) (id : String) :
    (c.Kill w).2.count (Event.enterKill id) = if c.containerID = id then 1 else 0 := by
  unfold container.Kill
  simp only
  split
  · by_cases h : c.containerID = id <;> simp [List.count_cons, h]
  · simp only [List.count_append, kill_body_enterKill_count, cleanup_enterKill_count]
    by_cases h : c.containerID = id <;> simp [List.count_cons, h]

theorem remove_effect (w : EngineWorld) (id : String) (b : Box) (k : String)
    (hw : b.wellKeyed) :
    (Box.waitLoop.remove w b k).1.wellKeyed ∧
    (Box.waitLoop.remove w b k).1.containers.lookup id
      = (if k = id then none else b.containers.lookup id) ∧
    (Box.waitLoop.remove w b k).2.count (Event.enterKill id)
      = (if k = id ∧ (b.containers.lookup id).isSome = true then 1 else 0) := by
  unfold Box.waitLoop.remove
  split
  · rename_i cnt hlook
    have hid : cnt.containerID = k := hw _ (lookup_mem k cnt _ hlook)
    refine ⟨?_, ?_, ?_⟩
    · intro e he
      exact hw e (List.mem_of_mem_filter he)
    · by_cases hk : k = id
      · subst hk
        simp [lookup_delete_self]
      · have hk2 : id ≠ k := fun h => hk h.symm
        simp [hk, lookup_delete_ne k id hk2]
    · rw [kill_enterKill_count, hid]
      by_cases hk : k = id
      · subst hk
        simp [hlook]
      · simp [hk]
  · rename_i hlook
    refine ⟨hw, ?_, ?_⟩
    · by_cases hk : k = id
      · subst hk
        simp [hlook]
      · simp [hk]
    · by_cases hk : k = id
      · subst hk
        simp [hlook]
      · simp [hk]

theorem visit_effect (w : EngineWorld) (id : String) (b : Box) (k : String)
    (hw : b.wellKeyed) (hans : w.answers k = true) :
    ∃ b1 tr1, Box.waitLoop.visit w b k = .next b1 tr1 ∧ b1.wellKeyed ∧
      b1.containers.lookup id
        = (if k = id ∧ w.reaps k = true then none else b.containers.lookup id) ∧
      tr1.count (Event.enterKill id)
        = (if k = id ∧ w.reaps k = true ∧ (b.containers.lookup id).isSome = true
            then 1 else 0) := by
  obtain ⟨r1w, r1l, r1c⟩ := remove_effect w id b k hw
  obtain ⟨r2w, r2l, r2c⟩ := remove_effect w id (Box.waitLoop.remove w b k).1 k r1w
  have hg : [Event.getProperty k "state"].count (Event.enterKill id) = 0 := by
    simp [List.count_cons]
  cases hE : (w.getProperty k "state").2 with
  | none =>
    by_cases hd : (w.getProperty k "state").1 = "dead"
    · have hr : w.reaps k = true := by simp [EngineWorld.reaps, hE, hd]
      refine ⟨(Box.waitLoop.remove w b k).1,
        [Event.getProperty k "state"] ++ (Box.waitLoop.remove w b k).2, ?_, r1w, ?_, ?_⟩
      · simp [Box.waitLoop.visit, hE, hd]
      · rw [r1l]
        simp only [hr, and_true]
      · rw [List.count_append, r1c, hg]
        simp only [hr, true_and, Nat.zero_add]
    · have hr : w.reaps k = false := by simp [EngineWorld.reaps, hE, hd]
      refine ⟨b, [Event.getProperty k "state"], ?_, hw, ?_, ?_⟩
      · simp [Box.waitLoop.visit, hE, hd]
      · simp [hr]
      · rw [hg]
        simp [hr]
  | some e =>
    cases e with
    | porto errName text =>
      have hn : errName = "ContainerDoesNotExist" := by
        simpa [EngineWorld.answers, hE] using hans
      have hr : w.reaps k = true := by simp [EngineWorld.reaps, hE, hn]
      by_cases hd : (w.getProperty k "state").1 = "dead"
      · refine ⟨(Box.waitLoop.remove w (Box.waitLoop.remove w b k).1 k).1,
          [Event.getProperty k "state"] ++ (Box.waitLoop.remove w b k).2
            ++ (Box.waitLoop.remove w (Box.waitLoop.remove w b k).1 k).2, ?_, r2w, ?_, ?_⟩
        · simp [Box.waitLoop.visit, hE, hd, hn]
        · rw [r2l, r1l]
          simp only [hr, and_true]
          by_cases hk : k = id <;> simp [hk]
        · rw [List.count_append, List.count_append, r1c, r2c, r1l, hg]
          simp only [hr, true_and, Nat.zero_add]
          by_cases hk : k = id <;> simp [hk]
      · refine ⟨(Box.waitLoop.remove w b k).1,
          [Event.getProperty k "state"] ++ (Box.waitLoop.remove w b k).2, ?_, r1w, ?_, ?_⟩
        · simp [Box.waitLoop.visit, hE, hd, hn]
        · rw [r1l]
          simp only [hr, and_true]
        · rw [List.count_append, r1c, hg]
          simp only [hr, true_and, Nat.zero_add]
    | errorf t => simp [EngineWorld.answers, hE] at hans
    | other t => simp [EngineWorld.answers, hE] at hans
    | eagain => simp [EngineWorld.answers, hE] at hans
    | spawningCancelled => simp [EngineWorld.answers, hE] at hans

theorem visitAll_effect (w : EngineWorld) (id : String) (ks : List String) :
    ∀ (b : Box) (tr : List Event), b.wellKeyed → (∀ k ∈ ks, w.answers k = true) →
      ∃ b1 tr1, Box.waitLoop.visitAll w ks b tr = .next b1 tr1 ∧ b1.wellKeyed ∧
        b1.containers.lookup id
          = (if id ∈ ks ∧ w.reaps id = true then none else b.containers.lookup id) ∧
        tr1.count (Event.enterKill id)
          = tr.count (Event.enterKill id)
            + (if id ∈ ks ∧ w.reaps id = true ∧ (b.containers.lookup id).isSome = true
                then 1 else 0) := by
  induction ks with
  | nil =>
    intro b tr hw _
    exact ⟨b, tr, rfl, hw, by simp, by simp⟩
  | cons k rest ih =>
    intro b tr hw hans
    obtain ⟨b1, tr1, hv, hw1, hl1, hc1⟩ :=
      visit_effect w id b k hw (hans k (List.mem_cons_self _ _))
    obtain ⟨b2, tr2, hv2, hw2, hl2, hc2⟩ :=
      ih b1 (tr ++ tr1) hw1 (fun k' hk' => hans k' (List.mem_cons_of_mem _ hk'))
    refine ⟨b2, tr2, ?_, hw2, ?_, ?_⟩
    · simp only [Box.waitLoop.visitAll, hv]
      exact hv2
    · rw [hl2, hl1]
      by_cases hk : k = id
      · subst hk
        by_cases hr : w.reaps k = true <;> simp [hr]
      · have hk2 : ¬ id = k := fun h => hk h.symm
        simp [hk, hk2]
    · rw [hc2, List.count_append, hc1, hl1]
      by_cases hk : k = id
      · subst hk
        by_cases hr : w.reaps k = true
        · by_cases hs : (b.containers.lookup k).isSome = true <;> simp [hr, hs]
        · simp [hr]
      · have hk2 : ¬ id = k := fun h => hk h.symm
        simp only [hk, false_and, if_false, List.mem_cons, hk2, false_or, Nat.add_zero]

theorem keeps_not_reaps (w : EngineWorld) (id : String) (h : w.keeps id = true) :
    w.reaps id = false := by
  unfold EngineWorld.keeps at h
  unfold EngineWorld.reaps
  split at h
  · simp at h
  · rename_i hE
    rw [hE]
    simp only [Bool.or_eq_true, beq_iff_eq] at h
    rcases h with (h | h) | h <;> simp [h]

/-- C12: for one pass of the reaper over a snapshot `ks` of tracked ids, on a box whose
map is keyed by engine id, when the engine answers every state query of the pass
without error or with `ContainerDoesNotExist` (the connection works): the pass visits
every id, and for each id of the snapshot, if its state query fails with
`ContainerDoesNotExist` or its state is `dead`, the id is not in the map after the
pass and `Kill()` was entered for it exactly once if the id was in the map, and not at
all otherwise; if its state is `running`, `starting` or `meta`, its entry is as before
the pass and `Kill()` was not entered for it. -/
theorem reaper_pass_reaps (w : EngineWorld) (b : Box) (ks : List String) (id : String)
    (hw : b.wellKeyed) (hconn : ∀ k ∈ ks, w.answers k = true) (hid : id ∈ ks) :
    ∃ b1 tr1, Box.waitLoop.visitAll w ks b [] = .next b1 tr1 ∧
      (w.reaps id = true →
        b1.containers.lookup id = none ∧
        tr1.count (Event.enterKill id)
          = (if (b.containers.lookup id).isSome = true then 1 else 0)) ∧
      (w.keeps id = true →
        b1.containers.lookup id = b.containers.lookup id ∧
        tr1.count (Event.enterKill id) = 0) := by
  obtain ⟨b1, tr1, hv, _, hl, hc⟩ := visitAll_effect w id ks b [] hw hconn
  refine ⟨b1, tr1, hv, ?_, ?_⟩
  · intro hr
    constructor
    · rw [hl]
      simp [hid, hr]
    · rw [hc]
      simp only [hid, hr, true_and, List.count_nil, Nat.zero_add]
  · intro hk
    have hr := keeps_not_reaps w id hk
    constructor
    · rw [hl]
      simp [hr]
    · rw [hc]
      simp [hr]

/-- Witness for `reaper_pass_reaps`: the registered container `echo_u` is gone from the
engine when the reaper passes. -/
theorem reaper_pass_reaps_witness :
    ∃ b1 tr1, Box.waitLoop.visitAll engineGone ["echo_u"] spawnedBox [] = .next b1 tr1 ∧
      (engineGone.reaps "echo_u" = true →
        b1.containers.lookup "echo_u" = none ∧
        tr1.count (Event.enterKill "echo_u")
          = (if (spawnedBox.containers.lookup "echo_u").isSome = true then 1 else 0)) ∧
      (engineGone.keeps "echo_u" = true →
        b1.containers.lookup "echo_u" = spawnedBox.containers.lookup "echo_u" ∧
        tr1.count (Event.enterKill "echo_u") = 0) :=
  reaper_pass_reaps engineGone spawnedBox ["echo_u"] "echo_u"
    (by unfold Box.wellKeyed; decide) (by decide) (by decide)

/-! ## The GC pass: freeing the unused allocations -/

theorem ipIsLive_iff (a : Allocation) (ips : List String) :
    Box.waitLoop.ipIsLive a ips = true ↔ a.Ip ∈ ips := by
  induction ips with
  | nil => simp [Box.waitLoop.ipIsLive]
  | cons ip rest ih =>
    unfold Box.waitLoop.ipIsLive
    by_cases h : a.Ip = ip
    · simp [h]
    · simp [h, ih]

/-- The removal loop is a filter: started at the index `kept.length` on the slice
`kept ++ rest`, with fuel for every element of `rest`, it ends normally and returns
`kept` followed by the elements of `rest`, in order, whose IP is not live. -/
theorem dropLive_spec (ips : List String) (rest : List Allocation) :
    ∀ (kept : List Allocation) (fuel : Nat), rest.length ≤ fuel →
      Box.waitLoop.dropLive ips fuel (kept ++ rest) kept.length
        = some (kept ++ rest.filter (fun a => !Box.waitLoop.ipIsLive a ips)) := by
  induction rest with
  | nil =>
    intro kept fuel _
    cases fuel <;> simp [Box.waitLoop.dropLive]
  | cons a r ih =>
    intro kept fuel hfuel
    cases fuel with
    | zero => simp at hfuel
    | succ f =>
      have hf : r.length ≤ f := by simpa using hfuel
      have hlt : (kept.length : Int) < ((kept ++ a :: r).length : Int) := by
        simp only [List.length_append, List.length_cons]
        omega
      have hnn : ¬ ((kept.length : Int) < 0) := by omega
      have hget : (kept ++ a :: r).get? (kept.length : Int).toNat = some a := by
        rw [Int.toNat_ofNat, List.get?_eq_getElem?,
          List.getElem?_append_right (Nat.le_refl _)]
        simp
      have htake : (kept ++ a :: r).take (kept.length : Int).toNat = kept := by
        simp
      have hdrop : (kept ++ a :: r).drop ((kept.length : Int).toNat + 1) = r := by
        simp
      have hidx : ((kept.length : Int) - 1 + 1) = (kept.length : Int) := by omega
      have hidx2 : ((kept.length : Int) + 1) = ((kept ++ [a]).length : Int) := by simp
      unfold Box.waitLoop.dropLive
      rw [if_pos hlt, if_neg hnn, hget]
      simp only
      by_cases hlive : Box.waitLoop.ipIsLive a ips = true
      · rw [if_pos hlive, htake, hdrop, hidx, ih kept f hf]
        simp [List.filter_cons, hlive]
      · rw [if_neg hlive, hidx2]
        have := ih (kept ++ [a]) f hf
        simp only [List.append_assoc, List.singleton_append] at this
        rw [this]
        simp [List.filter_cons, hlive]

theorem unuseAll_eq (name : String) (l : List Allocation) :
    Box.waitLoop.unuseAll name l
      = (l.filter (fun a => decide (a.Box = name))).map
          (fun a => Event.unuseAlloc a.NetId a.Id "GC state") := by
  induction l with
  | nil => rfl
  | cons a rest ih =>
    unfold Box.waitLoop.unuseAll
    by_cases h : a.Box = name
    · simp [h, ih]
    · simp [h, ih]

theorem dropLive_filter (ips : List String) (l : List Allocation) :
    Box.waitLoop.dropLive ips l.length l 0 = some (l.filter (fun a => decide (a.Ip ∉ ips))) := by
  have h := dropLive_spec ips l [] l.length (Nat.le_refl _)
  simp only [List.nil_append, List.length_nil, Nat.cast_zero] at h
  rw [h]
  congr 1
  apply List.filter_congr
  intro a _
  by_cases hl : a.Ip ∈ ips
  · simp [hl, (ipIsLive_iff a ips).mpr hl]
  · have : Box.waitLoop.ipIsLive a ips = false := by
      cases hb : Box.waitLoop.ipIsLive a ips
      · rfl
      · exact absurd ((ipIsLive_iff a ips).mp hb) hl
    simp [hl, this]

theorem freeAllocations_eq (b : Box) (usedAllocations : List Allocation)
    (ips : List String) :
    Box.waitLoop.freeAllocations b usedAllocations ips
      = some ((usedAllocations.filter
          (fun a => decide (a.Box = b.Name) && decide (a.Ip ∉ ips))).map
            (fun a => Event.unuseAlloc a.NetId a.Id "GC state")) := by
  have hrem : (if usedAllocations.length > 0 ∧ ips.length > 0 then
        Box.waitLoop.dropLive ips usedAllocations.length usedAllocations 0
      else some usedAllocations)
      = some (usedAllocations.filter (fun a => decide (a.Ip ∉ ips))) := by
    split
    · exact dropLive_filter ips usedAllocations
    · rename_i hc
      by_cases hu : usedAllocations = []
      · simp [hu]
      · have hi : ips = [] := by
          by_contra hne
          exact hc ⟨List.length_pos.mpr hu, List.length_pos.mpr hne⟩
        simp [hi]
  unfold Box.waitLoop.freeAllocations
  simp only [hrem]
  have hall : ∀ l : List Allocation,
      (if l.length > 0 then some (Box.waitLoop.unuseAll b.Name l) else some [])
        = some (Box.waitLoop.unuseAll b.Name l) := by
    intro l
    cases l with
    | nil => simp [Box.waitLoop.unuseAll]
    | cons a r => simp
  rw [hall, unuseAll_eq, List.filter_filter]


theorem collectIps_unuse (w : GcWorld) (names : List String) :
    ∀ (ips : List String) (tr : List Event),
      (Box.waitLoop.collectIps w names ips tr).2.filter Event.isUnuseAlloc
        = tr.filter Event.isUnuseAlloc := by
  induction names with
  | nil => intro ips tr; rfl
  | cons name rest ih =>
    intro ips tr
    simp only [Box.waitLoop.collectIps]
    repeat' split
    all_goals simp [ih, Event.isUnuseAlloc]

theorem collectIps_ips (w : GcWorld) (names : List String) :
    ∀ (ips : List String) (tr : List Event),
      (Box.waitLoop.collectIps w names ips tr).1
        = (Box.waitLoop.collectIps w names ips []).1 := by
  induction names with
  | nil => intro ips tr; rfl
  | cons name rest ih =>
    intro ips tr
    simp only [Box.waitLoop.collectIps]
    repeat' split
    all_goals first
      | rfl
      | (rw [ih _ (_ ++ _)]; exact (ih _ (_ ++ _)).symm)

theorem unlinkVolumes_unuse (label : String) (volumes : List VolumeDescription) :
    (Box.waitLoop.unlinkVolumes label volumes).filter Event.isUnuseAlloc = [] := by
  induction volumes with
  | nil => rfl
  | cons v rest ih =>
    unfold Box.waitLoop.unlinkVolumes
    split <;> simp [ih, Event.isUnuseAlloc]

theorem unuse_calls_filter (l : List Allocation) :
    (l.map (fun a => Event.unuseAlloc a.NetId a.Id "GC state")).filter Event.isUnuseAlloc
      = l.map (fun a => Event.unuseAlloc a.NetId a.Id "GC state") := by
  rw [List.filter_eq_self]
  intro e he
  obtain ⟨a, _, rfl⟩ := List.mem_map.mp he
  rfl

/-- The `UnuseAlloc` calls of the GC pass, read off the calls made by the part of
`waitLoop` before its loop. -/
theorem startup_unuse_calls (w : GcWorld) (b : Box)
    (hgc : b.config.Gc = true) (hconn : w.portoConnect = none)
    (hused : w.usedAllocations.2.2 = none) :
    (Box.waitLoop.startup w b).trace.filter Event.isUnuseAlloc
      = (w.usedAllocations.1.filter
          (fun a => decide (a.Box = b.Name)
            && decide (a.Ip ∉ Box.waitLoop.liveIps w))).map
            (fun a => Event.unuseAlloc a.NetId a.Id "GC state") := by
  have hs : Box.waitLoop.startup w b = Box.waitLoop.gc w b [Event.portoConnect] := by
    simp [Box.waitLoop.startup, hgc, hconn]
  have hips := collectIps_ips w w.list.1 []
    ([Event.portoConnect] ++ [Event.list, Event.usedAllocations])
  have htr := collectIps_unuse w w.list.1 []
    ([Event.portoConnect] ++ [Event.list, Event.usedAllocations])
  rw [hs]
  unfold Box.waitLoop.gc
  simp only [hused]
  rw [freeAllocations_eq, hips]
  simp only
  split
  · simp only [Startup.trace, List.filter_append, htr, unuse_calls_filter]
    simp [Event.isUnuseAlloc, Box.waitLoop.liveIps]
  · simp only [Startup.trace, List.filter_append, htr, unuse_calls_filter,
      unlinkVolumes_unuse]
    simp [Event.isUnuseAlloc, Box.waitLoop.liveIps]

/-- C15: in the GC pass, for every list of allocations reported as used and every list
of live IPs collected, the removal loop (cut out the element at `i`, then `i--`) ends
normally and leaves exactly the allocations whose IP equals none of the live IPs, in
their original order, and the loop after it calls `UnuseAlloc(NetId, Id, "GC state")`
once for each of those that belongs to this box, in that order, and for no other
allocation. For a daemon started with gc enabled, an engine connection and a working
allocation service, the `UnuseAlloc` calls made by `waitLoop` before its loop are
exactly these, for the allocations the service reports and the live IPs the pass
collects from the engine. -/
theorem gc_frees_unused_allocations (w : GcWorld) (b : Box)
    (usedAllocations : List Allocation) (ips : List String) :
    Box.waitLoop.dropLive ips usedAllocations.length usedAllocations 0
      = some (usedAllocations.filter (fun a => decide (a.Ip ∉ ips))) ∧
    Box.waitLoop.freeAllocations b usedAllocations ips
      = some ((usedAllocations.filter
          (fun a => decide (a.Box = b.Name) && decide (a.Ip ∉ ips))).map
            (fun a => Event.unuseAlloc a.NetId a.Id "GC state")) ∧
    (b.config.Gc = true → w.portoConnect = none → w.usedAllocations.2.2 = none →
      (Box.waitLoop.startup w b).trace.filter Event.isUnuseAlloc
        = (w.usedAllocations.1.filter
            (fun a => decide (a.Box = b.Name)
              && decide (a.Ip ∉ Box.waitLoop.liveIps w))).map
              (fun a => Event.unuseAlloc a.NetId a.Id "GC state")) :=
  ⟨dropLive_filter ips usedAllocations, freeAllocations_eq b usedAllocations ips,
    startup_unuse_calls w b⟩

/-- Witness for `gc_frees_unused_allocations`: the daemon starts with gc enabled while
one container with the IP `10.0.0.1` runs and `sampleAllocations` are marked as used;
the GC pass frees the allocation `a2` and no other. -/
theorem gc_frees_unused_allocations_witness :
    Box.waitLoop.liveIps gcWorld = ["10.0.0.1"] ∧
    Box.waitLoop.dropLive ["10.0.0.1"] sampleAllocations.length sampleAllocations 0
      = some (sampleAllocations.filter (fun a => decide (a.Ip ∉ ["10.0.0.1"]))) ∧
    (Box.waitLoop.startup gcWorld sampleBox).trace.filter Event.isUnuseAlloc
      = [Event.unuseAlloc "n1" "a2" "GC state"] :=
  ⟨by decide,
    (gc_frees_unused_allocations gcWorld sampleBox sampleAllocations ["10.0.0.1"]).1,
    ((gc_frees_unused_allocations gcWorld sampleBox sampleAllocations ["10.0.0.1"]).2.2
      (by decide) rfl rfl).trans (by decide)⟩

/-- On `sampleAllocations` with the live IP `10.0.0.1`, only the allocation `a2` of this
box is freed. -/
theorem gc_frees_sample :
    Box.waitLoop.freeAllocations sampleBox sampleAllocations ["10.0.0.1"]
      = some [Event.unuseAlloc "n1" "a2" "GC state"] := by
  decide

/-! ## The start of `waitLoop`: the early return of the GC pass -/

theorem iterate_iterations_ge (ticks : List Tick) :
    ∀ (b : Box) (connected : Bool) (tr : List Event) (n : Nat),
      n ≤ (Box.waitLoop.iterate ticks b connected tr n).iterations := by
  induction ticks with
  | nil => intro b connected tr n; exact Nat.le_refl _
  | cons t rest ih =>
    intro b connected tr n
    unfold Box.waitLoop.iterate
    simp only
    repeat' split
    all_goals first
      | exact Nat.le_succ _
      | exact Nat.le_trans (Nat.le_succ _) (ih _ _ _ _)

theorem iterate_cons_iterations (t : Tick) (rest : List Tick) (b : Box) (connected : Bool)
    (tr : List Event) :
    1 ≤ (Box.waitLoop.iterate (t :: rest) b connected tr 0).iterations := by
  unfold Box.waitLoop.iterate
  simp only
  repeat' split
  all_goals first
    | exact Nat.le_refl _
    | exact iterate_iterations_ge rest _ _ _ _

theorem gc_trace_usedAllocations_error (w : GcWorld) (b : Box) (tr : List Event)
    (h : w.usedAllocations.2.2 ≠ none) :
    Box.waitLoop.gc w b tr = .returned (tr ++ [Event.list, Event.usedAllocations]) := by
  unfold Box.waitLoop.gc
  simp only
  split
  · rfl
  · rename_i hn
    exact absurd hn h

theorem gc_enters_loop (w : GcWorld) (b : Box) (tr : List Event)
    (h : w.usedAllocations.2.2 = none) :
    ∃ tr1, Box.waitLoop.gc w b tr = .loop true tr1 := by
  unfold Box.waitLoop.gc
  simp only [h]
  rw [freeAllocations_eq]
  simp only
  split
  · exact ⟨_, rfl⟩
  · exact ⟨_, rfl⟩

theorem startup_connected (w : GcWorld) (b : Box)
    (hgc : b.config.Gc = true) (hconn : w.portoConnect = none) :
    Box.waitLoop.startup w b = Box.waitLoop.gc w b [Event.portoConnect] := by
  simp [Box.waitLoop.startup, hgc, hconn]

/-- C17: when gc is enabled, the first engine connection is open and `UsedAllocations`
returns an error, `waitLoop` returns right after that call: whatever ticks follow, no
iteration of the reaper loop begins, the box (and with it the containers map) is as it
was, and the only calls ever made are the connect, `List` and `UsedAllocations`. When
gc is disabled, or the first engine connection is open and `UsedAllocations` succeeds,
control reaches the reaper loop, and the first tick begins an iteration. -/
theorem waitLoop_gc_early_return (w : GcWorld) (b : Box) (t : Tick) (ticks : List Tick) :
    (b.config.Gc = true → w.portoConnect = none → w.usedAllocations.2.2 ≠ none →
        Box.waitLoop.startup w b
          = .returned [Event.portoConnect, Event.list, Event.usedAllocations] ∧
        (Box.waitLoop w b ticks).iterations = 0 ∧
        (Box.waitLoop w b ticks).box = b ∧
        (Box.waitLoop w b ticks).running = false ∧
        (Box.waitLoop w b ticks).trace
          = [Event.portoConnect, Event.list, Event.usedAllocations]) ∧
    (b.config.Gc = false ∨ (w.portoConnect = none ∧ w.usedAllocations.2.2 = none) →
        (∃ connected tr, Box.waitLoop.startup w b = .loop connected tr) ∧
        1 ≤ (Box.waitLoop w b (t :: ticks)).iterations) := by
  constructor
  · intro hgc hconn herr
    have hs : Box.waitLoop.startup w b
        = .returned [Event.portoConnect, Event.list, Event.usedAllocations] := by
      rw [startup_connected w b hgc hconn, gc_trace_usedAllocations_error w b _ herr]
      rfl
    refine ⟨hs, ?_, ?_, ?_, ?_⟩ <;> simp [Box.waitLoop, hs]
  · intro h
    have hloop : ∃ connected tr, Box.waitLoop.startup w b = .loop connected tr := by
      rcases h with hg | ⟨hconn, hok⟩
      · refine ⟨w.portoConnect.isNone, [Event.portoConnect], ?_⟩
        simp [Box.waitLoop.startup, hg]
      · by_cases hgc : b.config.Gc = true
        · obtain ⟨tr1, h1⟩ := gc_enters_loop w b [Event.portoConnect] hok
          exact ⟨true, tr1, by rw [startup_connected w b hgc hconn, h1]⟩
        · refine ⟨w.portoConnect.isNone, [Event.portoConnect], ?_⟩
          simp [Box.waitLoop.startup, hgc]
    refine ⟨hloop, ?_⟩
    obtain ⟨connected, tr, hs⟩ := hloop
    simp only [Box.waitLoop, hs]
    exact iterate_cons_iterations t ticks b connected tr

/-- Witness for `waitLoop_gc_early_return`: a daemon with the container `echo_u`
registered and already gone from the engine starts with gc enabled and an engine
connection, once with the allocation service down (the loop never starts, the entry
stays) and once with it up (the loop starts). -/
theorem waitLoop_gc_early_return_witness :
    (Box.waitLoop.startup gcFailsWorld spawnedBox
        = .returned [Event.portoConnect, Event.list, Event.usedAllocations] ∧
      (Box.waitLoop gcFailsWorld spawnedBox [⟨false, engineGone, false⟩]).iterations = 0 ∧
      (Box.waitLoop gcFailsWorld spawnedBox [⟨false, engineGone, false⟩]).box = spawnedBox ∧
      (Box.waitLoop gcFailsWorld spawnedBox [⟨false, engineGone, false⟩]).running = false ∧
      (Box.waitLoop gcFailsWorld spawnedBox [⟨false, engineGone, false⟩]).trace
        = [Event.portoConnect, Event.list, Event.usedAllocations]) ∧
    ((∃ connected tr, Box.waitLoop.startup gcWorld spawnedBox = .loop connected tr) ∧
      1 ≤ (Box.waitLoop gcWorld spawnedBox
            (⟨false, engineGone, false⟩ :: [⟨false, engineGone, false⟩])).iterations) :=
  ⟨(waitLoop_gc_early_return gcFailsWorld spawnedBox ⟨false, engineGone, false⟩
      [⟨false, engineGone, false⟩]).1 (by decide) rfl (by decide),
    (waitLoop_gc_early_return gcWorld spawnedBox ⟨false, engineGone, false⟩
      [⟨false, engineGone, false⟩]).2 (Or.inr ⟨rfl, rfl⟩)⟩

/-- The two starts side by side on the same box and ticks: with the allocation service
down the stale entry `echo_u` stays in the map and no iteration runs; with it up the
first iteration of the reaper loop removes the entry. -/
theorem waitLoop_gc_sample :
    ((Box.waitLoop gcFailsWorld spawnedBox [⟨false, engineGone, false⟩]).box.containers.lookup
      "echo_u").isSome = true ∧
    (Box.waitLoop gcFailsWorld spawnedBox [⟨false, engineGone, false⟩]).iterations = 0 ∧
    ((Box.waitLoop gcWorld spawnedBox [⟨false, engineGone, false⟩]).box.containers.lookup
      "echo_u").isSome = false ∧
    (Box.waitLoop gcWorld spawnedBox [⟨false, engineGone, false⟩]).iterations = 1 := by
  refine ⟨by decide, by decide, by decide, by decide⟩

end Stout
